import Mathlib

/-!
Verification of the secure-chat client core: a shallow embedding of the
message store (`src/lib/storage/messageStore.ts`, `MessageStoreManager`)
and of the encrypted-message handler (`MessageHandler` in
`src/lib/websocket/messageHandler.ts`), with theorems settling the
stated properties of these components.

Conventions: TypeScript strings are `String`, numbers holding times or
counters are `Nat`, `Map` objects are association lists with
set/delete helpers mirroring `Map.set`/`Map.delete`, and the IndexedDB
message table is a `List` of records held in insertion order.  Async
control flow is made explicit: an `await` on a promise splits an
operation into the part before the suspension point and a resumption
that runs when the promise settles.  Opaque, failable crypto
primitives (encrypt/decrypt/establish) are function parameters.
-/

namespace SC

/-- The durable message envelope (`StoredMessage` in the source): id,
conversation, sender, recipient, opaque ciphertext, timestamp, and the
two mutable flags `synced` and `read`. -/
structure StoredMessage where
  id : String
  conversationId : String
  senderId : String
  recipientId : String
  ciphertext : String
  timestamp : Nat
  synced : Bool
  read : Bool
deriving Repr, DecidableEq

/-- Sync metadata attached to entries of the in-memory `pendingSync`
map (`MessageWithMeta` minus the envelope fields). -/
structure PendingMeta where
  message : StoredMessage
  syncStatus : String
  retryCount : Nat
deriving Repr, DecidableEq

/-- Map.set on an association list: replaces every entry with the
given key, or appends when the key is absent. -/
def mapSet {κ β : Type} [BEq κ] (l : List (κ × β)) (k : κ) (v : β) : List (κ × β) :=
  if l.any (fun e => e.1 == k) then
    l.map (fun e => if e.1 == k then (k, v) else e)
  else
    l ++ [(k, v)]

/-- Map.delete on an association list. -/
def mapDelete {κ β : Type} [BEq κ] (l : List (κ × β)) (k : κ) : List (κ × β) :=
  l.filter (fun e => e.1 != k)

/-- Map.get on an association list. -/
def mapGet {κ β : Type} [BEq κ] (l : List (κ × β)) (k : κ) : Option β :=
  (l.find? (fun e => e.1 == k)).map (fun e => e.2)

/-- Modelled from the spec: the persistence boundary is a keyed record
store supporting get/put/delete/getAll per logical table; the
implementation file `src/lib/storage/indexeddb.ts` is not part of the
sources.  `storeMessage` is the keyed put on the messages table: it
replaces the record whose key (`id`) matches, or inserts the record
when the key is absent. -/
def putMessage (tbl : List StoredMessage) (r : StoredMessage) : List StoredMessage :=
  if tbl.any (fun m => m.id == r.id) then
    tbl.map (fun m => if m.id == r.id then r else m)
  else
    tbl ++ [r]

/-- Modelled from the spec: keyed get on the messages table (the
`store.get(messageId)` IndexedDB request used by `getMessage`). -/
def lookupMessage (tbl : List StoredMessage) (messageId : String) : Option StoredMessage :=
  tbl.find? (fun m => m.id == messageId)

/-- Modelled from the spec: keyed delete on the messages table. -/
def removeMessage (tbl : List StoredMessage) (messageId : String) : List StoredMessage :=
  tbl.filter (fun m => m.id != messageId)

/-- Modelled from the spec: `getUnsyncedMessages` of the missing
IndexedDB layer returns the envelopes with `synced:false`. -/
def getUnsyncedMessages (tbl : List StoredMessage) : List StoredMessage :=
  tbl.filter (fun m => !m.synced)

/-- Modelled from the spec: `markMessageSynced` of the missing
IndexedDB layer sets `synced := true` on the record with the given
key. -/
def markMessageSynced (tbl : List StoredMessage) (messageId : String) : List StoredMessage :=
  tbl.map (fun m => if m.id == messageId then { m with synced := true } else m)

/-- Modelled from the spec: `getMessages(conversationId, limit,
beforeTimestamp?)` of the missing IndexedDB layer paginates a
conversation: it retrieves the newest `limit` records of the
conversation (those with `timestamp` below `beforeTimestamp` when one
is given; the table is held in insertion order), returned oldest-first
for display. -/
def getMessages (tbl : List StoredMessage) (conversationId : String) (limit : Nat)
    (beforeTimestamp : Option Nat) : List StoredMessage :=
  let matching := tbl.filter (fun m =>
    m.conversationId == conversationId &&
    (match beforeTimestamp with
     | some t => decide (m.timestamp < t)
     | none => true))
  ((matching.reverse).take limit).reverse

/-- State owned by `MessageStoreManager`: the durable messages table
plus the bounded in-memory `pendingSync` index. -/
structure MessageStoreState where
  msgs : List StoredMessage
  pendingSync : List (String × PendingMeta)
deriving Repr, DecidableEq

/-- `MessageStoreManager.saveMessage`: the spread over the input record
unconditionally overrides `synced` and `read` with `false` (the
TypeScript signature omits the two fields statically, but the runtime
object is spread, so whatever it carried is overridden), stores the
full record, and tracks it in `pendingSync` with status pending. -/
def saveMessage (s : MessageStoreState) (message : StoredMessage) :
    MessageStoreState × StoredMessage :=
  let fullMessage : StoredMessage := { message with synced := false, read := false }
  let msgs := putMessage s.msgs fullMessage
  let pendingSync := mapSet s.pendingSync message.id ⟨fullMessage, "pending", 0⟩
  (⟨msgs, pendingSync⟩, fullMessage)

/-- The `updates` argument of `updateMessage`
(`Partial Pick StoredMessage of ciphertext or read or synced`): each
field is optionally present. -/
structure MessageUpdates where
  ciphertext : Option String
  read : Option Bool
  synced : Option Bool
deriving Repr, DecidableEq

/-- The object spread `... message, ... updates`: a field present in
`updates` overrides the stored one. -/
def applyUpdates (m : StoredMessage) (u : MessageUpdates) : StoredMessage :=
  { m with
    ciphertext := u.ciphertext.getD m.ciphertext
    read := u.read.getD m.read
    synced := u.synced.getD m.synced }

/-- `MessageStoreManager.updateMessage`: reads the record, returns
`none` when absent, otherwise spreads the updates over it and stores
the result. -/
def updateMessage (s : MessageStoreState) (messageId : String) (updates : MessageUpdates) :
    MessageStoreState × Option StoredMessage :=
  match lookupMessage s.msgs messageId with
  | none => (s, none)
  | some message =>
    let updated := applyUpdates message updates
    ({ s with msgs := putMessage s.msgs updated }, some updated)

/-- `MessageStoreManager.markAsRead`: `updateMessage` with only
`read := true`. -/
def markAsRead (s : MessageStoreState) (messageId : String) : MessageStoreState :=
  (updateMessage s messageId ⟨none, some true, none⟩).1

/-- `MessageStoreManager.markSynced`: `markMessageSynced` on the table
plus deletion from the `pendingSync` index. -/
def markSynced (s : MessageStoreState) (messageId : String) : MessageStoreState :=
  ⟨markMessageSynced s.msgs messageId, mapDelete s.pendingSync messageId⟩

/-- `MessageStoreManager.deleteMessage`: keyed delete on the table. -/
def deleteMessage (s : MessageStoreState) (messageId : String) : MessageStoreState :=
  { s with msgs := removeMessage s.msgs messageId }

/-- The for-loop body of `deleteConversationMessages`: delete each
retrieved record by id. -/
def deleteLoop : MessageStoreState → List StoredMessage → MessageStoreState
  | s, [] => s
  | s, msg :: rest => deleteLoop (deleteMessage s msg.id) rest

/-- `MessageStoreManager.deleteConversationMessages`: retrieves the
conversation once with limit 10000, deletes each retrieved record by
id, counting one per retrieved record, and returns the count. -/
def deleteConversationMessages (s : MessageStoreState) (conversationId : String) :
    MessageStoreState × Nat :=
  let messages := getMessages s.msgs conversationId 10000 none
  (deleteLoop s messages, messages.length)

/-- The for-loop body of `markConversationAsRead`: each retrieved
record that was retrieved unread is updated with `read := true`. -/
def markReadLoop : MessageStoreState → List StoredMessage → MessageStoreState
  | s, [] => s
  | s, msg :: rest =>
    markReadLoop (if msg.read then s else (updateMessage s msg.id ⟨none, some true, none⟩).1) rest

/-- `MessageStoreManager.markConversationAsRead`: retrieves the
conversation once with limit 10000 and runs the marking loop over the
retrieved page. -/
def markConversationAsRead (s : MessageStoreState) (conversationId : String) :
    MessageStoreState :=
  markReadLoop s (getMessages s.msgs conversationId 10000 none)

/-- The for-loop body of `importMessages`: for each incoming record, a
keyed get; when the id is absent the record is stored with
`synced := true` (and otherwise skipped), counting the stored ones. -/
def importLoop : MessageStoreState × Nat → List StoredMessage → MessageStoreState × Nat
  | acc, [] => acc
  | acc, msg :: rest =>
    importLoop
      (match lookupMessage acc.1.msgs msg.id with
       | some _ => acc
       | none => ({ acc.1 with msgs := putMessage acc.1.msgs { msg with synced := true } }, acc.2 + 1))
      rest

/-- `MessageStoreManager.importMessages`. -/
def importMessages (s : MessageStoreState) (messages : List StoredMessage) :
    MessageStoreState × Nat :=
  importLoop (s, 0) messages

/-- `MessageStoreManager.getMessageCount`: length of a single
retrieval with limit 10000. -/
def getMessageCount (s : MessageStoreState) (conversationId : String) : Nat :=
  (getMessages s.msgs conversationId 10000 none).length

/-- `MessageStoreManager.getUnreadCount`: unread records among a
single retrieval with limit 10000. -/
def getUnreadCount (s : MessageStoreState) (conversationId : String) : Nat :=
  ((getMessages s.msgs conversationId 10000 none).filter (fun m => !m.read)).length

/-- `MessageStoreManager.getUnsynced`. -/
def getUnsynced (s : MessageStoreState) : List StoredMessage :=
  getUnsyncedMessages s.msgs

/-- All records of one conversation (for stating bounds; not a source
operation). -/
def conversationMessages (tbl : List StoredMessage) (conversationId : String) :
    List StoredMessage :=
  tbl.filter (fun m => m.conversationId == conversationId)

/-- Well-formedness of a keyed messages table: ids are pairwise
distinct (keyed puts preserve this). -/
def TableWF (tbl : List StoredMessage) : Prop :=
  (tbl.map (fun m => m.id)).Nodup

/-- Between two tables: every record of the second has an origin
record in the first with the same identity fields and the same
ciphertext, so only the synced or read flags may have changed. -/
def OnlyFlagsChanged (tbl tbl2 : List StoredMessage) : Prop :=
  ∀ m2 ∈ tbl2, ∃ m ∈ tbl, m2.id = m.id ∧ m2.ciphertext = m.ciphertext ∧
    m2.conversationId = m.conversationId ∧ m2.senderId = m.senderId ∧
    m2.recipientId = m.recipientId ∧ m2.timestamp = m.timestamp

/-- The local identity (`KeyPair` of the crypto boundary, reduced to
the fields the handler reads). -/
structure KeyPair where
  publicKeyRaw : String
  fingerprint : String
deriving Repr, DecidableEq

/-- Per-peer cryptographic session (`SecureSession`), key material
kept opaque. -/
structure SecureSession where
  sessionId : String
  createdAt : Nat
deriving Repr, DecidableEq

/-- Durable session record (`StoredSession` persisted by
`establishSession`). -/
structure StoredSession where
  id : String
  peerId : String
  peerPublicKey : String
  peerFingerprint : String
  createdAt : Nat
  lastActivity : Nat
deriving Repr, DecidableEq

/-- Payload of an inbound or outbound `message` frame
(`EncryptedMessagePayload`). -/
structure EncryptedMessagePayload where
  conversationId : String
  senderId : String
  recipientId : String
  ciphertext : String
  timestamp : Nat
deriving Repr, DecidableEq

/-- Payload of a `key_response` frame (`KeyResponsePayload`). -/
structure KeyResponsePayload where
  userId : String
  publicKey : String
  fingerprint : String
deriving Repr, DecidableEq

/-- The UI-facing message record (`Message` of `chat/types`), with
`status` one of sending, sent, delivered. -/
structure Message where
  id : String
  conversationId : String
  senderId : String
  content : String
  timestamp : Nat
  status : String
  isEncrypted : Bool
deriving Repr, DecidableEq

/-- Frames handed to `client.send`, restricted to the types the
modelled operations emit. -/
inductive Frame where
  | message (payload : EncryptedMessagePayload)
  | messageAck (messageId : String) (conversationId : String) (status : String)
  | keyRequest (requesterId : String) (targetUserId : String)
  | keyResponse (payload : KeyResponsePayload)
deriving Repr, DecidableEq

/-- Observable events of a handler run, in program order: a
`messageStore.saveMessage` call, a `client.send` call, and the UI
callbacks. -/
inductive TraceEv where
  | persist (record : StoredMessage)
  | send (frame : Frame)
  | callbackMessage (record : Message)
  | callbackError (error : String)
  | callbackConnection (state : String)
  | callbackSessionEst (peerId : String)
deriving Repr, DecidableEq

/-- A `setTimeout` handle created by `requestPublicKey`: it rejects
`promiseId` for `userId` at `deadline` unless `clearTimeout`
deactivated it first. -/
structure Timer where
  id : Nat
  userId : String
  promiseId : Nat
  deadline : Nat
  active : Bool
deriving Repr, DecidableEq

/-- Settlement state of a promise returned by `requestPublicKey`. -/
inductive PromiseState where
  | pending
  | resolved (response : KeyResponsePayload)
  | rejected (error : String)
deriving Repr, DecidableEq

/-- The entry kept in `pendingKeyRequests` for a target user: the
resolver is identified by its promise, together with the timeout
timer the closure captured. -/
structure PendingEntry where
  promiseId : Nat
  timerId : Nat
deriving Repr, DecidableEq

/-- State of a `MessageHandler` plus its collaborators: identity,
in-memory session cache, pending key requests, the message store, the
durable session table, live timers and promises, the event trace, a
fresh-id counter and the current clock (`Date.now()`). -/
structure HandlerState where
  myUserId : String
  myKeyPair : Option KeyPair
  sessions : List (String × SecureSession)
  pendingKeyRequests : List (String × PendingEntry)
  store : MessageStoreState
  sessionTable : List (String × StoredSession)
  timers : List Timer
  promises : List (Nat × PromiseState)
  trace : List TraceEv
  nextId : Nat
  now : Nat
deriving Repr, DecidableEq

/-- Frames passed to `client.send` so far, in order. -/
def sentFrames (s : HandlerState) : List Frame :=
  s.trace.filterMap (fun ev => match ev with | .send f => some f | _ => none)

/-- Arguments of `onMessage` callback firings so far, in order. -/
def onMessageEvents (s : HandlerState) : List Message :=
  s.trace.filterMap (fun ev => match ev with | .callbackMessage m => some m | _ => none)

/-- Arguments of `onError` callback firings so far, in order. -/
def onErrorEvents (s : HandlerState) : List String :=
  s.trace.filterMap (fun ev => match ev with | .callbackError e => some e | _ => none)

/-- `MessageHandler.requestPublicKey(userId)`: creates the 10,000 ms
timeout timer whose callback deletes the pending entry for `userId`
and rejects with a timeout error, sets (overwriting) the
`pendingKeyRequests` entry for `userId` to the new resolver, and
sends one `key_request` frame; returns the new entry (promise and
timer ids). -/
def requestPublicKey (s : HandlerState) (userId : String) : HandlerState × PendingEntry :=
  let promiseId := s.nextId
  let timerId := s.nextId + 1
  let entry : PendingEntry := ⟨promiseId, timerId⟩
  ({ s with
      nextId := s.nextId + 2
      promises := s.promises ++ [(promiseId, PromiseState.pending)]
      timers := s.timers ++ [⟨timerId, userId, promiseId, s.now + 10000, true⟩]
      pendingKeyRequests := mapSet s.pendingKeyRequests userId entry
      trace := s.trace ++ [TraceEv.send (Frame.keyRequest s.myUserId userId)] },
   entry)

/-- Firing of the `requestPublicKey` timeout callback: only a timer
that is still active (not cleared) and whose deadline has passed can
fire; it deletes the `pendingKeyRequests` entry for the captured
`userId` (unconditionally, even if a later request overwrote it) and
rejects the captured promise with the timeout error. -/
def fireKeyRequestTimeout (s : HandlerState) (timerId : Nat) : HandlerState :=
  match s.timers.find? (fun t => t.id == timerId) with
  | none => s
  | some t =>
    if t.active && decide (t.deadline ≤ s.now) then
      { s with
          timers := s.timers.map (fun t2 => if t2.id == timerId then { t2 with active := false } else t2)
          pendingKeyRequests := mapDelete s.pendingKeyRequests t.userId
          promises := mapSet s.promises t.promiseId (PromiseState.rejected "Key request timeout") }
    else s

/-- `MessageHandler.handleKeyResponse`: when a pending entry matches
the responding user, its resolver runs (clearing the captured timer
and resolving the promise) and the entry is deleted; responses with
no matching entry are ignored. -/
def handleKeyResponse (s : HandlerState) (payload : KeyResponsePayload) : HandlerState :=
  match mapGet s.pendingKeyRequests payload.userId with
  | none => s
  | some entry =>
    { s with
        timers := s.timers.map (fun t => if t.id == entry.timerId then { t with active := false } else t)
        promises := mapSet s.promises entry.promiseId (PromiseState.resolved payload)
        pendingKeyRequests := mapDelete s.pendingKeyRequests payload.userId }

/-- Advance the clock by `ms` milliseconds. -/
def advance (s : HandlerState) (ms : Nat) : HandlerState :=
  { s with now := s.now + ms }

/-- `MessageHandler.establishSession` with the identity already in
hand: `establish` is the opaque `establishSecureSession` primitive;
the session is cached in the in-memory map, persisted to the session
store, and `onSessionEstablished` fires. -/
def establishSessionWith (establish : KeyPair → String → String → SecureSession)
    (keyPair : KeyPair) (s : HandlerState)
    (peerId : String) (publicKey : String) (fingerprint : String) :
    HandlerState × SecureSession :=
  let session := establish keyPair publicKey fingerprint
  ({ s with
      sessions := mapSet s.sessions peerId session
      sessionTable := mapSet s.sessionTable session.sessionId
        ⟨session.sessionId, peerId, publicKey, fingerprint, session.createdAt, s.now⟩
      trace := s.trace ++ [TraceEv.callbackSessionEst peerId] },
   session)

/-- `MessageHandler.sendMessage`: throws when not initialized;
otherwise uses the cached session or establishes one, encrypts
(`encrypt` is the opaque `encryptSessionMessage`, returning the
ciphertext of its envelope), persists the envelope via `saveMessage`
BEFORE handing the frame to `client.send` (whose boolean outcome is
the parameter `sent`), and returns the UI record whose status is
`sent` when the transport accepted the frame and `sending`
otherwise.  `rand` stands for the random suffix of the fresh message
id. -/
def sendMessage (establish : KeyPair → String → String → SecureSession)
    (encrypt : SecureSession → String → String → String → String)
    (rand : String) (sent : Bool) (s : HandlerState)
    (recipientId : String) (conversationId : String) (content : String)
    (recipientPublicKey : String) (recipientFingerprint : String) :
    Except String (HandlerState × Message) :=
  match s.myKeyPair with
  | none => Except.error "Handler not initialized"
  | some keyPair =>
    if s.myUserId = "" then Except.error "Handler not initialized"
    else
      let sp :=
        match mapGet s.sessions recipientId with
        | some session => (s, session)
        | none => establishSessionWith establish keyPair s recipientId recipientPublicKey recipientFingerprint
      let s1 := sp.1
      let session := sp.2
      let messageId := "msg-" ++ toString s.now ++ "-" ++ rand
      let timestamp := s.now
      let ciphertext := encrypt session s.myUserId recipientId content
      let record : StoredMessage :=
        ⟨messageId, conversationId, s.myUserId, recipientId, ciphertext, timestamp, false, false⟩
      let saved := saveMessage s1.store record
      let payload : EncryptedMessagePayload :=
        ⟨conversationId, s.myUserId, recipientId, ciphertext, timestamp⟩
      let s2 := { s1 with
        store := saved.1
        trace := s1.trace ++ [TraceEv.persist saved.2, TraceEv.send (Frame.message payload)] }
      let message : Message :=
        ⟨messageId, conversationId, s.myUserId, content, timestamp,
         if sent then "sent" else "sending", true⟩
      Except.ok (s2, message)

/-- `MessageHandler.handleEncryptedMessage`, the branch where a cached
session exists for the sender: `decrypt` is the opaque, failable
`decryptSessionMessage` (an `error` models a throw).  The source
decrypts FIRST; on success it builds the UI record with id
`msg-` followed by the payload timestamp and status delivered,
persists the envelope, fires `onMessage`, and sends a `message_ack`;
a throw lands in the catch block, which only fires `onError` — in
particular no envelope is persisted on a decrypt failure. -/
def handleWithSession (decrypt : SecureSession → EncryptedMessagePayload → Except String String)
    (s : HandlerState) (session : SecureSession) (payload : EncryptedMessagePayload) :
    HandlerState :=
  match decrypt session payload with
  | Except.error e => { s with trace := s.trace ++ [TraceEv.callbackError e] }
  | Except.ok plaintext =>
    let message : Message :=
      ⟨"msg-" ++ toString payload.timestamp, payload.conversationId, payload.senderId,
       plaintext, payload.timestamp, "delivered", true⟩
    let record : StoredMessage :=
      ⟨message.id, payload.conversationId, payload.senderId, s.myUserId,
       payload.ciphertext, payload.timestamp, false, false⟩
    let saved := saveMessage s.store record
    { s with
        store := saved.1
        trace := s.trace ++
          [TraceEv.persist saved.2,
           TraceEv.callbackMessage message,
           TraceEv.send (Frame.messageAck message.id payload.conversationId "delivered")] }

/-- `MessageHandler.handleEncryptedMessage` up to its first suspension
point: with a cached session the whole branch is synchronous; with no
session the handler calls `requestPublicKey` (issuing the single
`key_request` frame) and then AWAITS the returned promise, so the
`saveMessage` that follows the await has not run yet — the returned
entry identifies the awaited promise. -/
def handleEncryptedMessage (decrypt : SecureSession → EncryptedMessagePayload → Except String String)
    (s : HandlerState) (payload : EncryptedMessagePayload) :
    HandlerState × Option PendingEntry :=
  match mapGet s.sessions payload.senderId with
  | some session => (handleWithSession decrypt s session payload, none)
  | none =>
    let pr := requestPublicKey s payload.senderId
    (pr.1, some pr.2)

/-- Resumption of the suspended no-session branch once the awaited
`requestPublicKey` promise settles: on resolution the queued
`saveMessage` runs, persisting the received ciphertext verbatim under
id `msg-` followed by the current clock; on rejection the try block
aborts into the catch, which only fires `onError`; while the promise
is pending the branch stays suspended. -/
def resumeNoSession (s : HandlerState) (payload : EncryptedMessagePayload) (promiseId : Nat) :
    HandlerState :=
  match mapGet s.promises promiseId with
  | some (PromiseState.resolved _) =>
    let record : StoredMessage :=
      ⟨"msg-" ++ toString s.now, payload.conversationId, payload.senderId, s.myUserId,
       payload.ciphertext, payload.timestamp, false, false⟩
    let saved := saveMessage s.store record
    { s with store := saved.1, trace := s.trace ++ [TraceEv.persist saved.2] }
  | some (PromiseState.rejected e) =>
    { s with trace := s.trace ++ [TraceEv.callbackError e] }
  | _ => s

/-- End-to-end run of an inbound `message` frame in the execution
where no matching `key_response` arrives within 10,000 ms: the
handler suspends at the awaited `requestPublicKey`, 10,000 ms pass,
the timeout timer fires, and the rejection resumes the suspended
branch. -/
def runNoSessionTimeout (decrypt : SecureSession → EncryptedMessagePayload → Except String String)
    (s : HandlerState) (payload : EncryptedMessagePayload) : HandlerState :=
  match handleEncryptedMessage decrypt s payload with
  | (s1, none) => s1
  | (s1, some entry) =>
    resumeNoSession (fireKeyRequestTimeout (advance s1 10000) entry.timerId) payload entry.promiseId

/-- End-to-end run of an inbound `message` frame in the execution
where a `key_response` arrives before the timeout: the response
settles the awaited promise and the suspended branch resumes. -/
def runNoSessionResponse (decrypt : SecureSession → EncryptedMessagePayload → Except String String)
    (s : HandlerState) (payload : EncryptedMessagePayload) (response : KeyResponsePayload) :
    HandlerState :=
  match handleEncryptedMessage decrypt s payload with
  | (s1, none) => s1
  | (s1, some entry) =>
    resumeNoSession (handleKeyResponse s1 response) payload entry.promiseId

/-- The for-loop body of `syncPendingMessages`: each unsynced record
is re-sent as a `message` frame and marked synced exactly when
`client.send` accepted it (`sendOk` gives the transport outcome per
envelope). -/
def syncLoop (sendOk : StoredMessage → Bool) : HandlerState → List StoredMessage → HandlerState
  | s, [] => s
  | s, msg :: rest =>
    let s1 := { s with trace := s.trace ++
      [TraceEv.send (Frame.message ⟨msg.conversationId, msg.senderId, msg.recipientId, msg.ciphertext, msg.timestamp⟩)] }
    syncLoop sendOk (if sendOk msg then { s1 with store := markSynced s1.store msg.id } else s1) rest

/-- `MessageHandler.syncPendingMessages`: re-sends every unsynced
envelope and marks the accepted ones synced. -/
def syncPendingMessages (sendOk : StoredMessage → Bool) (s : HandlerState) : HandlerState :=
  syncLoop sendOk s (getUnsynced s.store)

/-- The `onConnectionChange` subscription installed by
`setupHandlers`: forwards the state to the UI callback and, exactly
on `connected`, runs `syncPendingMessages`. -/
def onConnectionChange (sendOk : StoredMessage → Bool) (s : HandlerState) (state : String) :
    HandlerState :=
  let s1 := { s with trace := s.trace ++ [TraceEv.callbackConnection state] }
  if state = "connected" then syncPendingMessages sendOk s1 else s1

/-- Ids already allocated are below `nextId`, so the ids a new
`requestPublicKey` mints are fresh. -/
def HandlerWF (s : HandlerState) : Prop :=
  (∀ t ∈ s.timers, t.id < s.nextId ∧ t.promiseId < s.nextId) ∧
  (∀ p ∈ s.promises, p.1 < s.nextId) ∧
  (∀ e ∈ s.pendingKeyRequests, e.2.promiseId < s.nextId ∧ e.2.timerId < s.nextId)

/-- A one-envelope store used as explicit input in counterexamples. -/
def exStore : MessageStoreState :=
  ⟨[⟨"m1", "c1", "alice", "bob", "ct0", 1, false, false⟩], []⟩

/-- A freshly constructed, initialized handler: no cached session,
nothing pending, empty store. -/
def exHandler : HandlerState :=
  ⟨"me", some ⟨"PK", "FP"⟩, [], [], ⟨[], []⟩, [], [], [], [], 0, 0⟩

/-- The fresh handler with a cached session for peer alice. -/
def exHandlerAlice : HandlerState :=
  { exHandler with sessions := [("alice", ⟨"sess-a", 0⟩)] }

/-- An inbound encrypted frame from alice. -/
def exPayload : EncryptedMessagePayload := ⟨"conv-1", "alice", "me", "CT", 5⟩

/-- The fresh handler over a store holding one unsynced and one
already-synced envelope. -/
def exSyncHandler : HandlerState :=
  { exHandler with store := ⟨[⟨"u1", "c1", "a", "b", "ctU", 1, false, false⟩,
      ⟨"s1", "c1", "a", "b", "ctS", 2, true, false⟩], []⟩ }

/-- A decrypt oracle that always fails (a throwing
`decryptSessionMessage`). -/
def decryptFail : SecureSession → EncryptedMessagePayload → Except String String :=
  fun _ _ => Except.error "bad mac"

/-- A decrypt oracle that always succeeds. -/
def decryptOk : SecureSession → EncryptedMessagePayload → Except String String :=
  fun _ _ => Except.ok "hello"

/-- Envelope number `i` of one big conversation; the id is `i`
repetitions of one character, so distinct numbers give distinct
ids. -/
def bigMsg (i : Nat) : StoredMessage :=
  ⟨String.mk (List.replicate i 'a'), "big", "alice", "me", "ct", i, false, false⟩

/-- The table of 10001 envelopes of a single conversation. -/
def bigMsgs : List StoredMessage :=
  (List.range 10001).map bigMsg

/-- A store holding 10001 envelopes of a single conversation. -/
def bigStore : MessageStoreState :=
  ⟨bigMsgs, []⟩

section MapLemmas

variable {κ β : Type} [BEq κ] [LawfulBEq κ]

theorem find_mapSet_self (l : List (κ × β)) (k : κ) (v : β) :
    (mapSet l k v).find? (fun e => e.1 == k) = some (k, v) := by
  unfold mapSet
  by_cases h : l.any (fun e => e.1 == k)
  · rw [if_pos h]
    induction l with
    | nil => simp at h
    | cons a as ih =>
      by_cases ha : a.1 = k
      · simp [List.find?_cons, ha]
      · have ha2 : (a.1 == k) = false := by simp [ha]
        have h2 : as.any (fun e => e.1 == k) := by
          simp only [List.any_cons, ha2, Bool.false_or] at h
          exact h
        simp only [List.map_cons, ha2, if_neg, List.find?_cons, Bool.false_eq_true]
        simp only [ha2, Bool.false_eq_true, if_false]
        exact ih h2
  · rw [if_neg h]
    rw [List.find?_append]
    have h1 : l.find? (fun e => e.1 == k) = none := by
      rw [List.find?_eq_none]
      intro x hx
      simp only [List.any_eq_true, not_exists, not_and] at h
      simp [h x hx]
    simp [h1]

theorem mapGet_mapSet_self (l : List (κ × β)) (k : κ) (v : β) :
    mapGet (mapSet l k v) k = some v := by
  unfold mapGet
  rw [find_mapSet_self]
  rfl

theorem mapGet_mapDelete_self (l : List (κ × β)) (k : κ) :
    mapGet (mapDelete l k) k = none := by
  unfold mapGet mapDelete
  have h : (l.filter (fun e => e.1 != k)).find? (fun e => e.1 == k) = none := by
    rw [List.find?_eq_none]
    intro x hx
    have := (List.mem_filter.mp hx).2
    simp only [bne_iff_ne, ne_eq] at this
    simp [this]
  simp [h]

theorem mapSet_idem (l : List (κ × β)) (k : κ) (v : β) :
    mapSet (mapSet l k v) k v = mapSet l k v := by
  unfold mapSet
  by_cases h : l.any (fun e => e.1 == k)
  · rw [if_pos h]
    have hany : (l.map (fun e => if e.1 == k then (k, v) else e)).any (fun e => e.1 == k) := by
      rw [List.any_eq_true] at h ⊢
      obtain ⟨e, he, hek⟩ := h
      refine ⟨(k, v), List.mem_map.mpr ⟨e, he, by simp [hek]⟩, by simp⟩
    rw [if_pos hany, List.map_map]
    apply List.map_congr_left
    intro e _
    by_cases hek : e.1 = k
    · simp [hek]
    · simp [hek]
  · rw [if_neg h]
    have hany : (l ++ [(k, v)]).any (fun e => e.1 == k) := by
      rw [List.any_eq_true]
      exact ⟨(k, v), by simp, by simp⟩
    rw [if_pos hany, List.map_append]
    have h1 : l.map (fun e => if e.1 == k then (k, v) else e) = l := by
      apply List.map_congr_left ?h |>.trans l.map_id
      intro e he
      simp only [List.any_eq_true, not_exists, not_and] at h
      have := h e he
      simp only [beq_iff_eq] at this
      simp [this]
    simp [h1]

end MapLemmas

section PutLemmas

theorem mem_putMessage_self (tbl : List StoredMessage) (r : StoredMessage) :
    r ∈ putMessage tbl r := by
  unfold putMessage
  by_cases h : tbl.any (fun m => m.id == r.id)
  · rw [if_pos h]
    rw [List.any_eq_true] at h
    obtain ⟨m, hm, hid⟩ := h
    exact List.mem_map.mpr ⟨m, hm, by simp [hid]⟩
  · rw [if_neg h]
    simp

theorem mem_putMessage_of_ne (tbl : List StoredMessage) (r m : StoredMessage)
    (hm : m ∈ tbl) (hne : m.id ≠ r.id) : m ∈ putMessage tbl r := by
  unfold putMessage
  by_cases h : tbl.any (fun mm => mm.id == r.id)
  · rw [if_pos h]
    refine List.mem_map.mpr ⟨m, hm, ?_⟩
    simp [hne]
  · rw [if_neg h]
    simp [hm]

theorem mem_putMessage_elim (tbl : List StoredMessage) (r x : StoredMessage)
    (hx : x ∈ putMessage tbl r) : x = r ∨ (x ∈ tbl ∧ x.id ≠ r.id) := by
  unfold putMessage at hx
  by_cases h : tbl.any (fun m => m.id == r.id)
  · rw [if_pos h] at hx
    obtain ⟨m, hm, hfx⟩ := List.mem_map.mp hx
    by_cases hid : m.id = r.id
    · left
      simp only [hid, beq_self_eq_true, if_pos] at hfx
      exact hfx.symm
    · right
      have : (m.id == r.id) = false := by simp [hid]
      simp only [this, Bool.false_eq_true, if_false] at hfx
      exact ⟨hfx ▸ hm, hfx ▸ hid⟩
  · rw [if_neg h] at hx
    rcases List.mem_append.mp hx with hmem | hr
    · right
      refine ⟨hmem, ?_⟩
      simp only [List.any_eq_true, not_exists, not_and] at h
      have := h x hmem
      simpa using this
    · left
      simpa using hr

theorem eq_of_mem_putMessage_id (tbl : List StoredMessage) (r x : StoredMessage)
    (hx : x ∈ putMessage tbl r) (hid : x.id = r.id) : x = r := by
  rcases mem_putMessage_elim tbl r x hx with h | ⟨_, hne⟩
  · exact h
  · exact absurd hid hne

theorem putMessage_idem (tbl : List StoredMessage) (r : StoredMessage) :
    putMessage (putMessage tbl r) r = putMessage tbl r := by
  unfold putMessage
  by_cases h : tbl.any (fun m => m.id == r.id)
  · rw [if_pos h]
    have hany : (tbl.map (fun m => if m.id == r.id then r else m)).any (fun m => m.id == r.id) := by
      rw [List.any_eq_true] at h ⊢
      obtain ⟨m, hm, hid⟩ := h
      exact ⟨r, List.mem_map.mpr ⟨m, hm, by simp [hid]⟩, by simp⟩
    rw [if_pos hany, List.map_map]
    apply List.map_congr_left
    intro m _
    by_cases hid : m.id = r.id
    · simp [hid]
    · simp [hid]
  · rw [if_neg h]
    have hany : (tbl ++ [r]).any (fun m => m.id == r.id) := by
      rw [List.any_eq_true]
      exact ⟨r, by simp, by simp⟩
    rw [if_pos hany, List.map_append]
    have h1 : tbl.map (fun m => if m.id == r.id then r else m) = tbl := by
      apply List.map_congr_left ?h |>.trans tbl.map_id
      intro m hm
      simp only [List.any_eq_true, not_exists, not_and] at h
      have := h m hm
      simp only [beq_iff_eq] at this
      simp [this]
    rw [h1]
    simp

theorem lookupMessage_of_wf (tbl : List StoredMessage) (m : StoredMessage)
    (hwf : TableWF tbl) (hm : m ∈ tbl) : lookupMessage tbl m.id = some m := by
  unfold TableWF at hwf
  unfold lookupMessage
  induction tbl with
  | nil => simp at hm
  | cons a as ih =>
    rcases List.mem_cons.mp hm with rfl | hmem
    · simp [List.find?_cons]
    · simp only [List.map_cons, List.nodup_cons] at hwf
      have hane : a.id ≠ m.id := by
        intro heq
        exact hwf.1 (heq ▸ List.mem_map.mpr ⟨m, hmem, rfl⟩)
      have : (a.id == m.id) = false := by simp [hane]
      rw [List.find?_cons, this]
      exact ih hwf.2 hmem

end PutLemmas

section C1

theorem onlyFlagsChanged_updateMessage (s : MessageStoreState) (messageId : String)
    (u : MessageUpdates) (hu : u.ciphertext = none) :
    OnlyFlagsChanged s.msgs (updateMessage s messageId u).1.msgs := by
  unfold updateMessage
  cases hfind : lookupMessage s.msgs messageId with
  | none =>
    intro m2 hm2
    exact ⟨m2, hm2, rfl, rfl, rfl, rfl, rfl, rfl⟩
  | some message =>
    intro m2 hm2
    simp only at hm2
    rcases mem_putMessage_elim _ _ _ hm2 with rfl | ⟨hmem, _⟩
    · have hmsg : message ∈ s.msgs := List.mem_of_find?_eq_some hfind
      refine ⟨message, hmsg, rfl, ?_, rfl, rfl, rfl, rfl⟩
      simp [applyUpdates, hu]
    · exact ⟨m2, hmem, rfl, rfl, rfl, rfl, rfl, rfl⟩

theorem onlyFlagsChanged_markSynced (s : MessageStoreState) (messageId : String) :
    OnlyFlagsChanged s.msgs (markSynced s messageId).msgs := by
  intro m2 hm2
  simp only [markSynced, markMessageSynced] at hm2
  obtain ⟨m, hm, hfm⟩ := List.mem_map.mp hm2
  by_cases hid : m.id = messageId
  · simp only [hid, beq_self_eq_true, if_pos] at hfm
    subst hfm
    exact ⟨m, hm, hid.symm, rfl, rfl, rfl, rfl, rfl⟩
  · have : (m.id == messageId) = false := by simp [hid]
    simp only [this, Bool.false_eq_true, if_false] at hfm
    subst hfm
    exact ⟨m, hm, rfl, rfl, rfl, rfl, rfl, rfl⟩

/-- Claim C1: counterexample.  The claim says every update operation
on an existing envelope — in particular `updateMessage` — leaves the
envelope's ciphertext equal to its creation value.  But the `updates`
argument of `updateMessage` admits a `ciphertext` field, and the
spread overwrites the stored ciphertext with it: updating the
one-envelope store (ciphertext `ct0`) with a ciphertext update `ct1`
yields a stored envelope whose ciphertext is `ct1`, not `ct0`. -/
theorem c1_counterexample :
    ((updateMessage exStore "m1" ⟨some "ct1", none, none⟩).1.msgs.map fun m => m.ciphertext)
      = ["ct1"] ∧
    ¬ ((updateMessage exStore "m1" ⟨some "ct1", none, none⟩).1.msgs.map fun m => m.ciphertext)
      = ["ct0"] := by
  constructor
  · decide
  · decide

/-- Claim C1, amended: `markAsRead` and `markSynced` always leave
every envelope's ciphertext (and identity fields) unchanged, and
`updateMessage` does so whenever its updates do not carry a
ciphertext field; only the synced and read flags may change.  (The
claim as stated fails because `updateMessage` accepts a ciphertext
update, see the counterexample.) -/
theorem c1_theorem (s : MessageStoreState) (messageId : String) (u : MessageUpdates)
    (hu : u.ciphertext = none) :
    OnlyFlagsChanged s.msgs (updateMessage s messageId u).1.msgs ∧
    OnlyFlagsChanged s.msgs (markAsRead s messageId).msgs ∧
    OnlyFlagsChanged s.msgs (markSynced s messageId).msgs :=
  ⟨onlyFlagsChanged_updateMessage s messageId u hu,
   onlyFlagsChanged_updateMessage s messageId ⟨none, some true, none⟩ rfl,
   onlyFlagsChanged_markSynced s messageId⟩

/-- Witness for the amended C1 theorem at the one-envelope store. -/
theorem c1_witness :
    (⟨none, some true, none⟩ : MessageUpdates).ciphertext = none ∧
    (OnlyFlagsChanged exStore.msgs (updateMessage exStore "m1" ⟨none, some true, none⟩).1.msgs ∧
     OnlyFlagsChanged exStore.msgs (markAsRead exStore "m1").msgs ∧
     OnlyFlagsChanged exStore.msgs (markSynced exStore "m1").msgs) :=
  ⟨rfl, c1_theorem exStore "m1" ⟨none, some true, none⟩ rfl⟩

end C1

section C9

theorem putMessage_absent (tbl : List StoredMessage) (r : StoredMessage)
    (h : lookupMessage tbl r.id = none) : putMessage tbl r = tbl ++ [r] := by
  unfold lookupMessage at h
  rw [List.find?_eq_none] at h
  have hc : (tbl.any (fun m => m.id == r.id)) = false := by
    rw [List.any_eq_false]
    exact fun m hm => by simpa using h m hm
  unfold putMessage
  rw [hc]
  simp

theorem lookupMessage_none_of_subset (sub sup : List StoredMessage) (k : String)
    (hsub : ∀ x ∈ sub, x ∈ sup) (h : lookupMessage sup k = none) :
    lookupMessage sub k = none := by
  unfold lookupMessage at h ⊢
  rw [List.find?_eq_none] at h ⊢
  exact fun x hx => h x (hsub x hx)

theorem importLoop_spec (s0 : List StoredMessage) (P : StoredMessage → Prop)
    (msgs : List StoredMessage) :
    ∀ acc : MessageStoreState × Nat, (∀ a ∈ msgs, P a) →
      (∀ r ∈ s0, r ∈ acc.1.msgs) →
      (∀ r ∈ acc.1.msgs, r ∈ s0 ∨ (r.synced = true ∧ ∃ m0, P m0 ∧
          r = { m0 with synced := true } ∧ lookupMessage s0 m0.id = none)) →
      (∀ r ∈ s0, r ∈ (importLoop acc msgs).1.msgs) ∧
      (∀ r ∈ (importLoop acc msgs).1.msgs, r ∈ s0 ∨ (r.synced = true ∧ ∃ m0, P m0 ∧
          r = { m0 with synced := true } ∧ lookupMessage s0 m0.id = none)) := by
  induction msgs with
  | nil =>
    intro acc _ hsub hinv
    exact ⟨hsub, hinv⟩
  | cons msg rest ih =>
    intro acc hP hsub hinv
    cases hlook : lookupMessage acc.1.msgs msg.id with
    | some m =>
      simp only [importLoop, hlook]
      exact ih acc (fun a ha => hP a (List.mem_cons_of_mem _ ha)) hsub hinv
    | none =>
      simp only [importLoop, hlook]
      have hput : putMessage acc.1.msgs { msg with synced := true } =
          acc.1.msgs ++ [{ msg with synced := true }] := putMessage_absent _ _ hlook
      apply ih
      · exact fun a ha => hP a (List.mem_cons_of_mem _ ha)
      · intro r hr
        simp only [hput]
        exact List.mem_append_left _ (hsub r hr)
      · intro r hr
        simp only [hput] at hr
        rcases List.mem_append.mp hr with hold | hnew
        · exact hinv r hold
        · right
          have hr2 : r = { msg with synced := true } := by simpa using hnew
          exact ⟨by rw [hr2], msg, hP msg (List.mem_cons_self _ _), hr2,
            lookupMessage_none_of_subset s0 acc.1.msgs msg.id hsub hlook⟩

/-- Claim C9: `saveMessage` stores and returns the record with
`synced` and `read` forced to `false` regardless of the flags the
caller supplied (the runtime spread overrides them), so no caller can
create an already-synced or already-read envelope through it; and
`importMessages` is the only operation storing `synced := true`
records, doing so exactly for incoming records whose id is absent
from the store, while leaving every existing record in place. -/
theorem c9_theorem (s : MessageStoreState) (m : StoredMessage) (msgs2 : List StoredMessage) :
    (saveMessage s m).2.synced = false ∧ (saveMessage s m).2.read = false ∧
    (∀ r ∈ (saveMessage s m).1.msgs, r.id = m.id → r.synced = false ∧ r.read = false) ∧
    (∀ r ∈ s.msgs, r ∈ (importMessages s msgs2).1.msgs) ∧
    (∀ r ∈ (importMessages s msgs2).1.msgs,
        r ∈ s.msgs ∨ (r.synced = true ∧ ∃ m0, m0 ∈ msgs2 ∧
          r = { m0 with synced := true } ∧ lookupMessage s.msgs m0.id = none)) := by
  have himp := importLoop_spec s.msgs (fun a => a ∈ msgs2) msgs2 (s, 0)
    (fun a ha => ha) (fun r hr => hr) (fun r hr => Or.inl hr)
  refine ⟨rfl, rfl, ?_, himp.1, himp.2⟩
  intro r hr hid
  have : r = { m with synced := false, read := false } :=
    eq_of_mem_putMessage_id s.msgs { m with synced := false, read := false } r hr hid
  rw [this]
  exact ⟨rfl, rfl⟩

/-- Witness for the C9 theorem: an input record arriving with both
flags set is stored with both forced to `false`, the pre-existing
envelope survives an import, and the imported record is stored
synced. -/
theorem c9_witness :
    (saveMessage exStore ⟨"m2", "c1", "x", "y", "ct9", 9, true, true⟩).2.synced = false ∧
    (saveMessage exStore ⟨"m2", "c1", "x", "y", "ct9", 9, true, true⟩).2.read = false ∧
    (⟨"m1", "c1", "alice", "bob", "ct0", 1, false, false⟩ : StoredMessage) ∈
      (importMessages exStore [⟨"m9", "c2", "x", "y", "ct9", 9, false, true⟩]).1.msgs ∧
    ((⟨"m9", "c2", "x", "y", "ct9", 9, true, true⟩ : StoredMessage) ∈ exStore.msgs ∨
      ((true : Bool) = true ∧ ∃ m0, m0 ∈ [(⟨"m9", "c2", "x", "y", "ct9", 9, false, true⟩ : StoredMessage)] ∧
        (⟨"m9", "c2", "x", "y", "ct9", 9, true, true⟩ : StoredMessage) = { m0 with synced := true } ∧
        lookupMessage exStore.msgs m0.id = none)) := by
  have h := c9_theorem exStore ⟨"m2", "c1", "x", "y", "ct9", 9, true, true⟩
    [⟨"m9", "c2", "x", "y", "ct9", 9, false, true⟩]
  refine ⟨h.1, h.2.1, ?_, ?_⟩
  · exact h.2.2.2.1 _ (by decide)
  · exact h.2.2.2.2 ⟨"m9", "c2", "x", "y", "ct9", 9, true, true⟩ (by decide)

end C9

section C10

theorem getMessages_none_eq (tbl : List StoredMessage) (c : String) (limit : Nat) :
    getMessages tbl c limit none =
      (((conversationMessages tbl c).reverse).take limit).reverse := by
  simp only [getMessages, conversationMessages, Bool.and_true]

theorem getMessages_sublist (tbl : List StoredMessage) (c : String) (limit : Nat) :
    List.Sublist (getMessages tbl c limit none) (conversationMessages tbl c) := by
  rw [getMessages_none_eq]
  have h1 : List.Sublist (((conversationMessages tbl c).reverse).take limit)
      ((conversationMessages tbl c).reverse) := List.take_sublist _ _
  have h2 := h1.reverse
  simpa using h2

theorem conversationMessages_sublist (tbl : List StoredMessage) (c : String) :
    List.Sublist (conversationMessages tbl c) tbl :=
  List.filter_sublist _

theorem getMessages_none_length (tbl : List StoredMessage) (c : String) (limit : Nat) :
    (getMessages tbl c limit none).length = min limit (conversationMessages tbl c).length := by
  rw [getMessages_none_eq]
  simp

theorem deleteLoop_mem_preserve (l : List StoredMessage) :
    ∀ (s : MessageStoreState) (m : StoredMessage), (∀ x ∈ l, x.id ≠ m.id) →
      m ∈ s.msgs → m ∈ (deleteLoop s l).msgs := by
  induction l with
  | nil => intro s m _ hm; exact hm
  | cons x rest ih =>
    intro s m hne hm
    unfold deleteLoop
    apply ih _ m (fun y hy => hne y (List.mem_cons_of_mem _ hy))
    unfold deleteMessage removeMessage
    simp only [List.mem_filter]
    refine ⟨hm, ?_⟩
    have := hne x (List.mem_cons_self _ _)
    simp [bne_iff_ne]
    exact fun hh => this hh.symm

theorem deleteLoop_subset (l : List StoredMessage) :
    ∀ (s : MessageStoreState) (m : StoredMessage), m ∈ (deleteLoop s l).msgs → m ∈ s.msgs := by
  induction l with
  | nil => intro s m hm; exact hm
  | cons x rest ih =>
    intro s m hm
    unfold deleteLoop at hm
    have := ih _ m hm
    unfold deleteMessage removeMessage at this
    exact (List.mem_filter.mp this).1

theorem lookupMessage_removeMessage (tbl : List StoredMessage) (k : String) :
    lookupMessage (removeMessage tbl k) k = none := by
  unfold lookupMessage removeMessage
  rw [List.find?_eq_none]
  intro x hx
  have := (List.mem_filter.mp hx).2
  simp only [bne_iff_ne, ne_eq] at this
  simp [this]

theorem deleteLoop_removes (l : List StoredMessage) :
    ∀ (s : MessageStoreState) (x : StoredMessage), x ∈ l →
      lookupMessage (deleteLoop s l).msgs x.id = none := by
  induction l with
  | nil => intro s x hx; simp at hx
  | cons y rest ih =>
    intro s x hx
    rcases List.mem_cons.mp hx with rfl | hmem
    · unfold deleteLoop
      apply lookupMessage_none_of_subset _ (deleteMessage s x.id).msgs
      · exact fun z hz => deleteLoop_subset rest _ z hz
      · exact lookupMessage_removeMessage s.msgs x.id
    · exact ih _ x hmem

theorem markReadLoop_mem_preserve (l : List StoredMessage) :
    ∀ (s : MessageStoreState) (m : StoredMessage), (∀ x ∈ l, x.id ≠ m.id) →
      m ∈ s.msgs → m ∈ (markReadLoop s l).msgs := by
  induction l with
  | nil => intro s m _ hm; exact hm
  | cons x rest ih =>
    intro s m hne hm
    unfold markReadLoop
    apply ih _ m (fun y hy => hne y (List.mem_cons_of_mem _ hy))
    by_cases hread : x.read
    · simp [hread, hm]
    · simp only [hread, Bool.false_eq_true, if_false]
      unfold updateMessage
      cases hlook : lookupMessage s.msgs x.id with
      | none => exact hm
      | some message =>
        simp only
        have hid : message.id = x.id := by
          have := List.find?_some hlook
          simpa using this
        apply mem_putMessage_of_ne _ _ m hm
        have : (applyUpdates message ⟨none, some true, none⟩).id = message.id := rfl
        rw [this, hid]
        have := hne x (List.mem_cons_self _ _)
        exact fun hh => this hh.symm

/-- Claim C10: every per-conversation bulk operation acts on at most
the 10000 records of a single retrieval.  For a conversation holding
more than 10000 envelopes: the retrieved page has exactly 10000
records; `deleteConversationMessages` returns exactly that count and
deletes exactly the retrieved records (each retrieved id is gone);
`getMessageCount` reports 10000 — strictly fewer than the
conversation actually holds; `getUnreadCount` counts unread records
among that single retrieval only, so it never exceeds 10000; EVERY
stored envelope outside the retrieved page — in particular every
envelope of the conversation beyond the bound, of which at least one
exists — survives the bulk delete and the bulk mark-as-read entirely
unchanged. -/
theorem c10_theorem (s : MessageStoreState) (c : String)
    (hwf : TableWF s.msgs)
    (hbig : 10000 < (conversationMessages s.msgs c).length) :
    (getMessages s.msgs c 10000 none).length = 10000 ∧
    (deleteConversationMessages s c).2 = 10000 ∧
    getMessageCount s c = 10000 ∧
    getMessageCount s c < (conversationMessages s.msgs c).length ∧
    getUnreadCount s c = ((getMessages s.msgs c 10000 none).filter (fun m => !m.read)).length ∧
    getUnreadCount s c ≤ 10000 ∧
    (∀ r ∈ getMessages s.msgs c 10000 none,
        lookupMessage (deleteConversationMessages s c).1.msgs r.id = none) ∧
    (∀ m ∈ s.msgs, m ∉ getMessages s.msgs c 10000 none →
        m ∈ (deleteConversationMessages s c).1.msgs ∧
        m ∈ (markConversationAsRead s c).msgs) ∧
    (∃ m ∈ s.msgs, m.conversationId = c ∧ m ∉ getMessages s.msgs c 10000 none) := by
  have hlen : (getMessages s.msgs c 10000 none).length = 10000 := by
    rw [getMessages_none_length]
    omega
  have hsub1 := getMessages_sublist s.msgs c 10000
  have hsub2 := conversationMessages_sublist s.msgs c
  have hconvsub : ∀ x ∈ conversationMessages s.msgs c, x ∈ s.msgs :=
    fun x hx => hsub2.subset hx
  have hretrsub : ∀ x ∈ getMessages s.msgs c 10000 none, x ∈ s.msgs :=
    fun x hx => hsub2.subset (hsub1.subset hx)
  have hwf2 : (s.msgs.map (fun m => m.id)).Nodup := hwf
  have hinj := List.inj_on_of_nodup_map hwf2
  -- the retrieved ids avoid the id of any record outside the page
  have hne : ∀ m ∈ s.msgs, m ∉ getMessages s.msgs c 10000 none →
      ∀ x ∈ getMessages s.msgs c 10000 none, x.id ≠ m.id := by
    intro m hm hmout x hx heq
    have : x = m := hinj (hretrsub x hx) hm heq
    exact hmout (this ▸ hx)
  have hconvnodup : (conversationMessages s.msgs c).Nodup := by
    have hids : ((conversationMessages s.msgs c).map (fun m => m.id)).Nodup :=
      (hsub2.map (fun m => m.id)).nodup hwf2
    exact hids.of_map _
  -- some record of the conversation is outside the retrieved page
  have hex : ∃ m ∈ conversationMessages s.msgs c, m ∉ getMessages s.msgs c 10000 none := by
    by_contra hcon
    push_neg at hcon
    have hsubs : conversationMessages s.msgs c ⊆ getMessages s.msgs c 10000 none :=
      fun x hx => hcon x hx
    have := (List.subperm_of_subset hconvnodup hsubs).length_le
    omega
  obtain ⟨m, hmconv, hmout⟩ := hex
  have hmmem : m ∈ s.msgs := hconvsub m hmconv
  have hmc : m.conversationId = c := by
    have := (List.mem_filter.mp hmconv).2
    simpa using this
  refine ⟨hlen, ?_, ?_, ?_, rfl, ?_, ?_, ?_, m, hmmem, hmc, hmout⟩
  · unfold deleteConversationMessages
    simpa using hlen
  · unfold getMessageCount
    exact hlen
  · unfold getMessageCount
    omega
  · unfold getUnreadCount
    calc ((getMessages s.msgs c 10000 none).filter (fun m => !m.read)).length
        ≤ (getMessages s.msgs c 10000 none).length := List.length_filter_le _ _
      _ = 10000 := hlen
  · intro r hr
    unfold deleteConversationMessages
    exact deleteLoop_removes _ s r hr
  · intro m2 hm2 hm2out
    constructor
    · unfold deleteConversationMessages
      exact deleteLoop_mem_preserve _ s m2 (hne m2 hm2 hm2out) hm2
    · unfold markConversationAsRead
      exact markReadLoop_mem_preserve _ s m2 (hne m2 hm2 hm2out) hm2

theorem bigStore_msgs : bigStore.msgs = bigMsgs := by
  unfold bigStore
  dsimp only

theorem bigMsgs_eq : bigMsgs = (List.range 10001).map bigMsg := by
  unfold bigMsgs
  rfl

theorem bigStore_wf : TableWF bigStore.msgs := by
  rw [TableWF, bigStore_msgs, bigMsgs_eq, List.map_map]
  apply List.Nodup.map ?_ (List.nodup_range 10001)
  intro a b h
  have hdata : List.replicate a 'a' = List.replicate b 'a' := by
    have h2 := congrArg String.data h
    simpa [bigMsg] using h2
  have := congrArg List.length hdata
  simpa using this

theorem bigStore_big : conversationMessages bigStore.msgs "big" = bigStore.msgs := by
  apply List.filter_eq_self.mpr
  intro a ha
  rw [bigStore_msgs, bigMsgs_eq] at ha
  obtain ⟨i, _, rfl⟩ := List.mem_map.mp ha
  simp [bigMsg]

/-- Witness for the C10 theorem at a store holding 10001 envelopes of
one conversation: the counts stop at 10000 and an envelope beyond
the retrieved page survives both bulk operations unchanged. -/
theorem c10_witness :
    TableWF bigStore.msgs ∧
    10000 < (conversationMessages bigStore.msgs "big").length ∧
    (getMessages bigStore.msgs "big" 10000 none).length = 10000 ∧
    (deleteConversationMessages bigStore "big").2 = 10000 ∧
    getMessageCount bigStore "big" = 10000 ∧
    getMessageCount bigStore "big" < (conversationMessages bigStore.msgs "big").length ∧
    getUnreadCount bigStore "big" =
      ((getMessages bigStore.msgs "big" 10000 none).filter (fun m => !m.read)).length ∧
    getUnreadCount bigStore "big" ≤ 10000 ∧
    (∃ m ∈ bigStore.msgs, m.conversationId = "big" ∧
        m ∉ getMessages bigStore.msgs "big" 10000 none ∧
        m ∈ (deleteConversationMessages bigStore "big").1.msgs ∧
        m ∈ (markConversationAsRead bigStore "big").msgs) := by
  have hbig : 10000 < (conversationMessages bigStore.msgs "big").length := by
    rw [bigStore_big, bigStore_msgs, bigMsgs_eq]
    simp
  have h := c10_theorem bigStore "big" bigStore_wf hbig
  obtain ⟨m, hm, hmc, hmout⟩ := h.2.2.2.2.2.2.2.2
  have hsur := h.2.2.2.2.2.2.2.1 m hm hmout
  exact ⟨bigStore_wf, hbig, h.1, h.2.1, h.2.2.1, h.2.2.2.1, h.2.2.2.2.1, h.2.2.2.2.2.1,
    m, hm, hmc, hmout, hsur.1, hsur.2⟩

end C10

section C3

/-- Claim C3: counterexample.  From a fresh handler, two
`requestPublicKey` calls for `bob` with neither resolved transmit TWO
`key_request` frames (not one), create TWO timeout timers (not one),
and the second call overwrites the pending entry rather than reusing
it. -/
theorem c3_counterexample :
    sentFrames (requestPublicKey (requestPublicKey exHandler "bob").1 "bob").1 =
      [Frame.keyRequest "me" "bob", Frame.keyRequest "me" "bob"] ∧
    (requestPublicKey (requestPublicKey exHandler "bob").1 "bob").1.timers.length = 2 ∧
    mapGet (requestPublicKey (requestPublicKey exHandler "bob").1 "bob").1.pendingKeyRequests "bob"
      ≠ mapGet (requestPublicKey exHandler "bob").1.pendingKeyRequests "bob" := by
  refine ⟨?_, ?_, ?_⟩
  · decide
  · decide
  · decide

/-- Claim C3, amended: there is no in-flight deduplication.  A second
`requestPublicKey` call for the same target issued while the first is
pending does not reuse the pending entry: it installs a fresh entry
(with a fresh promise), creates a second timeout timer, and transmits
a second `key_request` frame, so two frames go out in total. -/
theorem c3_theorem (s : HandlerState) (u : String) :
    sentFrames (requestPublicKey (requestPublicKey s u).1 u).1 =
      sentFrames s ++ [Frame.keyRequest s.myUserId u, Frame.keyRequest s.myUserId u] ∧
    (requestPublicKey (requestPublicKey s u).1 u).1.timers.length = s.timers.length + 2 ∧
    mapGet (requestPublicKey (requestPublicKey s u).1 u).1.pendingKeyRequests u =
      some (requestPublicKey (requestPublicKey s u).1 u).2 ∧
    (requestPublicKey (requestPublicKey s u).1 u).2.promiseId ≠
      (requestPublicKey s u).2.promiseId := by
  refine ⟨?_, ?_, ?_, ?_⟩
  · simp [requestPublicKey, sentFrames, List.filterMap_append]
  · simp [requestPublicKey]
  · simp [requestPublicKey, mapGet_mapSet_self]
  · simp [requestPublicKey]

end C3

section C8

theorem timeout_run_eq (s : HandlerState) (u : String) (hwf : HandlerWF s) :
    fireKeyRequestTimeout (advance (requestPublicKey s u).1 10000) (requestPublicKey s u).2.timerId =
      { myUserId := s.myUserId, myKeyPair := s.myKeyPair, sessions := s.sessions
        pendingKeyRequests := mapDelete (mapSet s.pendingKeyRequests u ⟨s.nextId, s.nextId + 1⟩) u
        store := s.store, sessionTable := s.sessionTable
        timers := (s.timers ++ [(⟨s.nextId + 1, u, s.nextId, s.now + 10000, true⟩ : Timer)]).map
          (fun t2 => if t2.id == s.nextId + 1 then { t2 with active := false } else t2)
        promises := mapSet (s.promises ++ [(s.nextId, PromiseState.pending)]) s.nextId
          (PromiseState.rejected "Key request timeout")
        trace := s.trace ++ [TraceEv.send (Frame.keyRequest s.myUserId u)]
        nextId := s.nextId + 2, now := s.now + 10000 } := by
  have hfind : (advance (requestPublicKey s u).1 10000).timers.find?
      (fun t => t.id == (requestPublicKey s u).2.timerId) =
      some ⟨s.nextId + 1, u, s.nextId, s.now + 10000, true⟩ := by
    simp only [requestPublicKey, advance]
    rw [List.find?_append]
    have hnone : s.timers.find? (fun t => t.id == s.nextId + 1) = none := by
      rw [List.find?_eq_none]
      intro t ht
      have := (hwf.1 t ht).1
      simp only [beq_iff_eq]
      omega
    simp [hnone]
  unfold fireKeyRequestTimeout
  rw [hfind]
  have hcond : decide ((⟨s.nextId + 1, u, s.nextId, s.now + 10000, true⟩ : Timer).deadline ≤
      (advance (requestPublicKey s u).1 10000).now) = true := by
    simp [requestPublicKey, advance]
  simp only [hcond, Bool.true_and, if_pos]
  simp [requestPublicKey, advance]

/-- Claim C8: a `requestPublicKey` call that sees no matching
`key_response` within 10,000 ms has its promise rejected with the
timeout error by the timer callback, and the pending entry for the
target is removed; a subsequent call for the same target then
installs a fresh pending entry with a fresh promise, creates a new
timer, and transmits a new `key_request` frame. -/
theorem c8_theorem (s : HandlerState) (u : String) (hwf : HandlerWF s) :
    mapGet (fireKeyRequestTimeout (advance (requestPublicKey s u).1 10000)
        (requestPublicKey s u).2.timerId).pendingKeyRequests u = none ∧
    mapGet (fireKeyRequestTimeout (advance (requestPublicKey s u).1 10000)
        (requestPublicKey s u).2.timerId).promises (requestPublicKey s u).2.promiseId =
      some (PromiseState.rejected "Key request timeout") ∧
    mapGet (requestPublicKey (fireKeyRequestTimeout (advance (requestPublicKey s u).1 10000)
        (requestPublicKey s u).2.timerId) u).1.pendingKeyRequests u =
      some (requestPublicKey (fireKeyRequestTimeout (advance (requestPublicKey s u).1 10000)
        (requestPublicKey s u).2.timerId) u).2 ∧
    (requestPublicKey (fireKeyRequestTimeout (advance (requestPublicKey s u).1 10000)
        (requestPublicKey s u).2.timerId) u).2.promiseId ≠ (requestPublicKey s u).2.promiseId ∧
    sentFrames (requestPublicKey (fireKeyRequestTimeout (advance (requestPublicKey s u).1 10000)
        (requestPublicKey s u).2.timerId) u).1 =
      sentFrames s ++ [Frame.keyRequest s.myUserId u, Frame.keyRequest s.myUserId u] ∧
    (requestPublicKey (fireKeyRequestTimeout (advance (requestPublicKey s u).1 10000)
        (requestPublicKey s u).2.timerId) u).1.timers.length = s.timers.length + 2 := by
  rw [timeout_run_eq s u hwf]
  refine ⟨?_, ?_, ?_, ?_, ?_, ?_⟩
  · exact mapGet_mapDelete_self _ _
  · simp only [requestPublicKey]
    exact mapGet_mapSet_self _ _ _
  · simp only [requestPublicKey]
    exact mapGet_mapSet_self _ _ _
  · simp [requestPublicKey]
  · simp [requestPublicKey, sentFrames, List.filterMap_append]
  · simp [requestPublicKey]

theorem exHandler_wf : HandlerWF exHandler := by
  refine ⟨?_, ?_, ?_⟩ <;> intro x hx <;> simp [exHandler] at hx

/-- Witness for the C8 theorem at a fresh handler requesting the key
of `bob`. -/
theorem c8_witness :
    HandlerWF exHandler ∧
    mapGet (fireKeyRequestTimeout (advance (requestPublicKey exHandler "bob").1 10000)
        (requestPublicKey exHandler "bob").2.timerId).pendingKeyRequests "bob" = none ∧
    mapGet (fireKeyRequestTimeout (advance (requestPublicKey exHandler "bob").1 10000)
        (requestPublicKey exHandler "bob").2.timerId).promises
        (requestPublicKey exHandler "bob").2.promiseId =
      some (PromiseState.rejected "Key request timeout") ∧
    sentFrames (requestPublicKey (fireKeyRequestTimeout (advance (requestPublicKey exHandler "bob").1 10000)
        (requestPublicKey exHandler "bob").2.timerId) "bob").1 =
      sentFrames exHandler ++ [Frame.keyRequest "me" "bob", Frame.keyRequest "me" "bob"] := by
  have h := c8_theorem exHandler "bob" exHandler_wf
  exact ⟨exHandler_wf, h.1, h.2.1, h.2.2.2.2.1⟩

end C8

section C2

/-- Claim C2: the code drops the message on key-request timeout.  In
`handleEncryptedMessage` the no-session branch AWAITS
`requestPublicKey` before reaching the `saveMessage` call, so the
persist runs only in the execution where a matching `key_response`
arrives; when the 10,000 ms timer fires instead, the rejection lands
in the catch block and the envelope is never persisted — the store
is left exactly as it was, with only `onError` fired, although
exactly one `key_request` frame went out.  In the response execution
the received ciphertext IS persisted verbatim, again with exactly
one `key_request` frame. -/
theorem c2_theorem (decrypt : SecureSession → EncryptedMessagePayload → Except String String)
    (s : HandlerState) (payload : EncryptedMessagePayload) (response : KeyResponsePayload)
    (hwf : HandlerWF s)
    (hnosess : mapGet s.sessions payload.senderId = none)
    (hresp : response.userId = payload.senderId) :
    (runNoSessionTimeout decrypt s payload).store = s.store ∧
    sentFrames (runNoSessionTimeout decrypt s payload) =
      sentFrames s ++ [Frame.keyRequest s.myUserId payload.senderId] ∧
    onErrorEvents (runNoSessionTimeout decrypt s payload) =
      onErrorEvents s ++ ["Key request timeout"] ∧
    (⟨"msg-" ++ toString s.now, payload.conversationId, payload.senderId, s.myUserId,
        payload.ciphertext, payload.timestamp, false, false⟩ : StoredMessage) ∈
      (runNoSessionResponse decrypt s payload response).store.msgs ∧
    sentFrames (runNoSessionResponse decrypt s payload response) =
      sentFrames s ++ [Frame.keyRequest s.myUserId payload.senderId] := by
  have hdispatch : handleEncryptedMessage decrypt s payload =
      ((requestPublicKey s payload.senderId).1, some (requestPublicKey s payload.senderId).2) := by
    unfold handleEncryptedMessage
    rw [hnosess]
  have htimeout : runNoSessionTimeout decrypt s payload =
      resumeNoSession
        (fireKeyRequestTimeout (advance (requestPublicKey s payload.senderId).1 10000)
          (requestPublicKey s payload.senderId).2.timerId)
        payload (requestPublicKey s payload.senderId).2.promiseId := by
    unfold runNoSessionTimeout
    rw [hdispatch]
  have hresprun : runNoSessionResponse decrypt s payload response =
      resumeNoSession (handleKeyResponse (requestPublicKey s payload.senderId).1 response)
        payload (requestPublicKey s payload.senderId).2.promiseId := by
    unfold runNoSessionResponse
    rw [hdispatch]
  have hto : resumeNoSession
      (fireKeyRequestTimeout (advance (requestPublicKey s payload.senderId).1 10000)
        (requestPublicKey s payload.senderId).2.timerId)
      payload (requestPublicKey s payload.senderId).2.promiseId =
      { fireKeyRequestTimeout (advance (requestPublicKey s payload.senderId).1 10000)
          (requestPublicKey s payload.senderId).2.timerId with
        trace := (fireKeyRequestTimeout (advance (requestPublicKey s payload.senderId).1 10000)
          (requestPublicKey s payload.senderId).2.timerId).trace ++
            [TraceEv.callbackError "Key request timeout"] } := by
    rw [timeout_run_eq s payload.senderId hwf]
    unfold resumeNoSession
    have hget : mapGet (mapSet (s.promises ++ [(s.nextId, PromiseState.pending)]) s.nextId
        (PromiseState.rejected "Key request timeout"))
        (requestPublicKey s payload.senderId).2.promiseId =
        some (PromiseState.rejected "Key request timeout") := by
      simp only [requestPublicKey]
      exact mapGet_mapSet_self _ _ _
    rw [hget]
  have hpend : mapGet (requestPublicKey s payload.senderId).1.pendingKeyRequests response.userId =
      some (requestPublicKey s payload.senderId).2 := by
    rw [hresp]
    simp only [requestPublicKey]
    exact mapGet_mapSet_self _ _ _
  refine ⟨?_, ?_, ?_, ?_, ?_⟩
  · rw [htimeout, hto, timeout_run_eq s payload.senderId hwf]
  · rw [htimeout, hto, timeout_run_eq s payload.senderId hwf]
    simp [sentFrames, List.filterMap_append]
  · rw [htimeout, hto, timeout_run_eq s payload.senderId hwf]
    simp [onErrorEvents, List.filterMap_append]
  · rw [hresprun]
    unfold handleKeyResponse
    rw [hpend]
    unfold resumeNoSession
    have hget2 : mapGet (mapSet (requestPublicKey s payload.senderId).1.promises
        (requestPublicKey s payload.senderId).2.promiseId (PromiseState.resolved response))
        (requestPublicKey s payload.senderId).2.promiseId =
        some (PromiseState.resolved response) := mapGet_mapSet_self _ _ _
    simp only [hget2]
    simp only [requestPublicKey, saveMessage]
    exact mem_putMessage_self _ _
  · rw [hresprun]
    unfold handleKeyResponse
    rw [hpend]
    unfold resumeNoSession
    have hget2 : mapGet (mapSet (requestPublicKey s payload.senderId).1.promises
        (requestPublicKey s payload.senderId).2.promiseId (PromiseState.resolved response))
        (requestPublicKey s payload.senderId).2.promiseId =
        some (PromiseState.resolved response) := mapGet_mapSet_self _ _ _
    simp only [hget2]
    simp [requestPublicKey, saveMessage, sentFrames, List.filterMap_append]

/-- Witness for the C2 theorem: a fresh handler receiving a frame
from alice with no cached session; on timeout nothing is stored and
one error fires, on response the ciphertext `CT` is stored
verbatim. -/
theorem c2_witness :
    HandlerWF exHandler ∧
    mapGet exHandler.sessions "alice" = none ∧
    (runNoSessionTimeout decryptFail exHandler exPayload).store = exHandler.store ∧
    sentFrames (runNoSessionTimeout decryptFail exHandler exPayload) =
      [Frame.keyRequest "me" "alice"] ∧
    onErrorEvents (runNoSessionTimeout decryptFail exHandler exPayload) = ["Key request timeout"] ∧
    (⟨"msg-0", "conv-1", "alice", "me", "CT", 5, false, false⟩ : StoredMessage) ∈
      (runNoSessionResponse decryptFail exHandler exPayload ⟨"alice", "PKA", "FPA"⟩).store.msgs := by
  have h := c2_theorem decryptFail exHandler exPayload ⟨"alice", "PKA", "FPA"⟩
    exHandler_wf (by decide) (by decide)
  exact ⟨exHandler_wf, by decide, h.1, h.2.1, h.2.2.1, h.2.2.2.1⟩

end C2

section C4

/-- Claim C4: counterexample.  For an inbound frame from a peer WITH
a cached session and a failing decrypt, the claim says the envelope
was persisted before the decrypt attempt and its ciphertext remains
stored for retry.  In the code the decrypt runs first: starting from
an empty store, after the failing run the store is still empty — no
envelope with the received ciphertext exists — while `onError`
fired. -/
theorem c4_counterexample :
    (handleEncryptedMessage decryptFail exHandlerAlice exPayload).1.store.msgs = [] ∧
    onErrorEvents (handleEncryptedMessage decryptFail exHandlerAlice exPayload).1 = ["bad mac"] := by
  constructor
  · decide
  · decide

/-- Claim C4, amended: for an inbound encrypted message from a peer
with a cached session the envelope is persisted only AFTER a
successful decrypt; whenever decryption fails, the failure is
reported via the `onError` callback and the store is left completely
unchanged — in particular no envelope for the frame is persisted (so
nothing stored is mutated, but no ciphertext is retained for a
retry either) — and on success the envelope with the verbatim
ciphertext is persisted. -/
theorem c4_theorem (decrypt : SecureSession → EncryptedMessagePayload → Except String String)
    (s : HandlerState) (session : SecureSession) (payload : EncryptedMessagePayload)
    (hsess : mapGet s.sessions payload.senderId = some session) :
    (∀ e, decrypt session payload = Except.error e →
      (handleEncryptedMessage decrypt s payload).1.store = s.store ∧
      onErrorEvents (handleEncryptedMessage decrypt s payload).1 = onErrorEvents s ++ [e] ∧
      onMessageEvents (handleEncryptedMessage decrypt s payload).1 = onMessageEvents s ∧
      sentFrames (handleEncryptedMessage decrypt s payload).1 = sentFrames s) ∧
    (∀ pt, decrypt session payload = Except.ok pt →
      (⟨"msg-" ++ toString payload.timestamp, payload.conversationId, payload.senderId,
          s.myUserId, payload.ciphertext, payload.timestamp, false, false⟩ : StoredMessage) ∈
        (handleEncryptedMessage decrypt s payload).1.store.msgs) := by
  have hdisp : handleEncryptedMessage decrypt s payload =
      (handleWithSession decrypt s session payload, none) := by
    unfold handleEncryptedMessage
    rw [hsess]
  constructor
  · intro e he
    rw [hdisp]
    unfold handleWithSession
    rw [he]
    refine ⟨rfl, ?_, ?_, ?_⟩
    · simp [onErrorEvents, List.filterMap_append]
    · simp [onMessageEvents, List.filterMap_append]
    · simp [sentFrames, List.filterMap_append]
  · intro pt hpt
    rw [hdisp]
    unfold handleWithSession
    rw [hpt]
    simp only [saveMessage]
    exact mem_putMessage_self _ _

/-- Witness for the amended C4 theorem: at the session-holding
handler, a failing decrypt leaves the empty store empty and fires
`onError`; a succeeding decrypt persists the envelope verbatim. -/
theorem c4_witness :
    mapGet exHandlerAlice.sessions "alice" = some ⟨"sess-a", 0⟩ ∧
    decryptFail ⟨"sess-a", 0⟩ exPayload = Except.error "bad mac" ∧
    (handleEncryptedMessage decryptFail exHandlerAlice exPayload).1.store = exHandlerAlice.store ∧
    onErrorEvents (handleEncryptedMessage decryptFail exHandlerAlice exPayload).1 = ["bad mac"] ∧
    decryptOk ⟨"sess-a", 0⟩ exPayload = Except.ok "hello" ∧
    (⟨"msg-5", "conv-1", "alice", "me", "CT", 5, false, false⟩ : StoredMessage) ∈
      (handleEncryptedMessage decryptOk exHandlerAlice exPayload).1.store.msgs := by
  have h1 := c4_theorem decryptFail exHandlerAlice ⟨"sess-a", 0⟩ exPayload (by decide)
  have h2 := c4_theorem decryptOk exHandlerAlice ⟨"sess-a", 0⟩ exPayload (by decide)
  have he := h1.1 "bad mac" rfl
  refine ⟨by decide, rfl, he.1, ?_, rfl, h2.2 "hello" rfl⟩
  have := he.2.1
  simpa [exHandlerAlice, exHandler, onErrorEvents] using this

end C4

section C6

theorem responseRun_facts (decrypt : SecureSession → EncryptedMessagePayload → Except String String)
    (s : HandlerState) (payload : EncryptedMessagePayload) (response : KeyResponsePayload)
    (hnosess : mapGet s.sessions payload.senderId = none)
    (hresp : response.userId = payload.senderId) :
    (runNoSessionResponse decrypt s payload response).sessions = s.sessions ∧
    (runNoSessionResponse decrypt s payload response).myUserId = s.myUserId ∧
    (runNoSessionResponse decrypt s payload response).now = s.now ∧
    (runNoSessionResponse decrypt s payload response).store.msgs =
      putMessage s.store.msgs ⟨"msg-" ++ toString s.now, payload.conversationId,
        payload.senderId, s.myUserId, payload.ciphertext, payload.timestamp, false, false⟩ := by
  have hdispatch : handleEncryptedMessage decrypt s payload =
      ((requestPublicKey s payload.senderId).1, some (requestPublicKey s payload.senderId).2) := by
    unfold handleEncryptedMessage
    rw [hnosess]
  have hpend : mapGet (requestPublicKey s payload.senderId).1.pendingKeyRequests response.userId =
      some (requestPublicKey s payload.senderId).2 := by
    rw [hresp]
    simp only [requestPublicKey]
    exact mapGet_mapSet_self _ _ _
  have hresprun : runNoSessionResponse decrypt s payload response =
      resumeNoSession (handleKeyResponse (requestPublicKey s payload.senderId).1 response)
        payload (requestPublicKey s payload.senderId).2.promiseId := by
    unfold runNoSessionResponse
    rw [hdispatch]
  rw [hresprun]
  unfold handleKeyResponse
  rw [hpend]
  unfold resumeNoSession
  have hget2 : mapGet (mapSet (requestPublicKey s payload.senderId).1.promises
      (requestPublicKey s payload.senderId).2.promiseId (PromiseState.resolved response))
      (requestPublicKey s payload.senderId).2.promiseId =
      some (PromiseState.resolved response) := mapGet_mapSet_self _ _ _
  simp only [hget2]
  refine ⟨?_, ?_, ?_, ?_⟩ <;> simp [requestPublicKey, saveMessage]

/-- Claim C6: counterexample.  Processing the same inbound frame
twice (same sender, same payload, hence the same derived message id)
does not duplicate the stored envelope — the keyed put overwrites —
but it DOES fire the `onMessage` callback a second time (two firings
below), so the second processing is not idempotent as claimed. -/
theorem c6_counterexample :
    (onMessageEvents (handleEncryptedMessage decryptOk
        (handleEncryptedMessage decryptOk exHandlerAlice exPayload).1 exPayload).1).length = 2 ∧
    (handleEncryptedMessage decryptOk
        (handleEncryptedMessage decryptOk exHandlerAlice exPayload).1 exPayload).1.store.msgs.length
      = 1 := by
  constructor
  · decide
  · decide

/-- Claim C6, amended: processing the same inbound `message` frame
twice is not idempotent.  On every path the `onMessage` callback
fires again (and a second `message_ack` is sent) per processing; and
on the no-session path each completed re-processing persists a
SEPARATE envelope under a fresh id derived from the current clock
(`msg-` followed by `Date.now()`), duplicating the stored ciphertext.
Only on the cached-session path is no duplicate envelope created:
there the id derives from the payload timestamp, so the keyed put
overwrites and the whole store is left unchanged by the second
processing. -/
theorem c6_theorem (decrypt : SecureSession → EncryptedMessagePayload → Except String String)
    (s : HandlerState) (payload : EncryptedMessagePayload) (response : KeyResponsePayload)
    (pt : String) (dt : Nat) :
    (∀ session, mapGet s.sessions payload.senderId = some session →
      decrypt session payload = Except.ok pt →
      (handleEncryptedMessage decrypt (handleEncryptedMessage decrypt s payload).1 payload).1.store
          = (handleEncryptedMessage decrypt s payload).1.store ∧
      onMessageEvents
          (handleEncryptedMessage decrypt (handleEncryptedMessage decrypt s payload).1 payload).1 =
        onMessageEvents (handleEncryptedMessage decrypt s payload).1 ++
          [⟨"msg-" ++ toString payload.timestamp, payload.conversationId, payload.senderId, pt,
            payload.timestamp, "delivered", true⟩] ∧
      sentFrames
          (handleEncryptedMessage decrypt (handleEncryptedMessage decrypt s payload).1 payload).1 =
        sentFrames (handleEncryptedMessage decrypt s payload).1 ++
          [Frame.messageAck ("msg-" ++ toString payload.timestamp) payload.conversationId
            "delivered"]) ∧
    (mapGet s.sessions payload.senderId = none →
      response.userId = payload.senderId →
      ("msg-" ++ toString s.now) ≠ ("msg-" ++ toString (s.now + dt)) →
      (⟨"msg-" ++ toString s.now, payload.conversationId, payload.senderId, s.myUserId,
          payload.ciphertext, payload.timestamp, false, false⟩ : StoredMessage) ∈
        (runNoSessionResponse decrypt
          (advance (runNoSessionResponse decrypt s payload response) dt)
          payload response).store.msgs ∧
      (⟨"msg-" ++ toString (s.now + dt), payload.conversationId, payload.senderId, s.myUserId,
          payload.ciphertext, payload.timestamp, false, false⟩ : StoredMessage) ∈
        (runNoSessionResponse decrypt
          (advance (runNoSessionResponse decrypt s payload response) dt)
          payload response).store.msgs ∧
      (⟨"msg-" ++ toString s.now, payload.conversationId, payload.senderId, s.myUserId,
          payload.ciphertext, payload.timestamp, false, false⟩ : StoredMessage) ≠
        ⟨"msg-" ++ toString (s.now + dt), payload.conversationId, payload.senderId, s.myUserId,
          payload.ciphertext, payload.timestamp, false, false⟩) := by
  constructor
  · intro session hsess hdec
    have hdisp : (handleEncryptedMessage decrypt s payload).1 =
        handleWithSession decrypt s session payload := by
      unfold handleEncryptedMessage
      rw [hsess]
    have hsess1 : mapGet (handleEncryptedMessage decrypt s payload).1.sessions payload.senderId =
        some session := by
      rw [hdisp]
      unfold handleWithSession
      rw [hdec]
      exact hsess
    have hdisp2 : (handleEncryptedMessage decrypt (handleEncryptedMessage decrypt s payload).1
        payload).1 =
        handleWithSession decrypt (handleEncryptedMessage decrypt s payload).1 session payload := by
      conv_lhs => rw [handleEncryptedMessage]
      rw [hsess1]
    rw [hdisp2, hdisp]
    unfold handleWithSession
    rw [hdec]
    unfold saveMessage
    dsimp only
    rw [putMessage_idem, mapSet_idem]
    refine ⟨rfl, ?_, ?_⟩
    · simp [onMessageEvents, List.filterMap_append]
    · simp [sentFrames, List.filterMap_append]
  · intro hnosess hresp hids
    have hf1 := responseRun_facts decrypt s payload response hnosess hresp
    have hnosess2 : mapGet (advance (runNoSessionResponse decrypt s payload response) dt).sessions
        payload.senderId = none := by
      unfold advance
      dsimp only
      rw [hf1.1]
      exact hnosess
    have hf2 := responseRun_facts decrypt
      (advance (runNoSessionResponse decrypt s payload response) dt) payload response
      hnosess2 hresp
    have hnow2 : (advance (runNoSessionResponse decrypt s payload response) dt).now =
        s.now + dt := by
      unfold advance
      dsimp only
      rw [hf1.2.2.1]
    have huid2 : (advance (runNoSessionResponse decrypt s payload response) dt).myUserId =
        s.myUserId := by
      unfold advance
      dsimp only
      exact hf1.2.1
    have hstore2 : (advance (runNoSessionResponse decrypt s payload response) dt).store.msgs =
        putMessage s.store.msgs ⟨"msg-" ++ toString s.now, payload.conversationId,
          payload.senderId, s.myUserId, payload.ciphertext, payload.timestamp, false, false⟩ := by
      unfold advance
      dsimp only
      exact hf1.2.2.2
    have hmsgs2 := hf2.2.2.2
    rw [hnow2, huid2, hstore2] at hmsgs2
    have hidne : (⟨"msg-" ++ toString s.now, payload.conversationId, payload.senderId,
        s.myUserId, payload.ciphertext, payload.timestamp, false, false⟩ : StoredMessage).id ≠
        (⟨"msg-" ++ toString (s.now + dt), payload.conversationId, payload.senderId,
          s.myUserId, payload.ciphertext, payload.timestamp, false, false⟩ : StoredMessage).id :=
      hids
    refine ⟨?_, ?_, ?_⟩
    · rw [hmsgs2]
      exact mem_putMessage_of_ne _ _ _ (mem_putMessage_self _ _) hidne
    · rw [hmsgs2]
      exact mem_putMessage_self _ _
    · intro h
      exact hids (congrArg (fun r : StoredMessage => r.id) h)

/-- Witness for the amended C6 theorem: on the session path (handler
with a cached session for alice) re-processing leaves the store
unchanged but fires `onMessage` again; on the no-session path (fresh
handler, key responses arriving, 7 ms between the two processings)
two distinct envelopes with the same ciphertext end up stored. -/
theorem c6_witness :
    mapGet exHandlerAlice.sessions "alice" = some ⟨"sess-a", 0⟩ ∧
    decryptOk ⟨"sess-a", 0⟩ exPayload = Except.ok "hello" ∧
    (handleEncryptedMessage decryptOk
        (handleEncryptedMessage decryptOk exHandlerAlice exPayload).1 exPayload).1.store =
      (handleEncryptedMessage decryptOk exHandlerAlice exPayload).1.store ∧
    onMessageEvents (handleEncryptedMessage decryptOk
        (handleEncryptedMessage decryptOk exHandlerAlice exPayload).1 exPayload).1 =
      onMessageEvents (handleEncryptedMessage decryptOk exHandlerAlice exPayload).1 ++
        [⟨"msg-5", "conv-1", "alice", "hello", 5, "delivered", true⟩] ∧
    mapGet exHandler.sessions "alice" = none ∧
    (⟨"msg-0", "conv-1", "alice", "me", "CT", 5, false, false⟩ : StoredMessage) ∈
      (runNoSessionResponse decryptOk
        (advance (runNoSessionResponse decryptOk exHandler exPayload ⟨"alice", "PKA", "FPA"⟩) 7)
        exPayload ⟨"alice", "PKA", "FPA"⟩).store.msgs ∧
    (⟨"msg-7", "conv-1", "alice", "me", "CT", 5, false, false⟩ : StoredMessage) ∈
      (runNoSessionResponse decryptOk
        (advance (runNoSessionResponse decryptOk exHandler exPayload ⟨"alice", "PKA", "FPA"⟩) 7)
        exPayload ⟨"alice", "PKA", "FPA"⟩).store.msgs ∧
    (⟨"msg-0", "conv-1", "alice", "me", "CT", 5, false, false⟩ : StoredMessage) ≠
      ⟨"msg-7", "conv-1", "alice", "me", "CT", 5, false, false⟩ := by
  have h1 := (c6_theorem decryptOk exHandlerAlice exPayload ⟨"alice", "PKA", "FPA"⟩ "hello" 7).1
    ⟨"sess-a", 0⟩ (by decide) rfl
  have h2 := (c6_theorem decryptOk exHandler exPayload ⟨"alice", "PKA", "FPA"⟩ "hello" 7).2
    (by decide) rfl (by decide)
  exact ⟨by decide, rfl, h1.1, h1.2.1, by decide, h2.1, h2.2.1, h2.2.2⟩

end C6

section C5

/-- Claim C5: on an initialized handler `sendMessage` never throws
and never drops the composed message: it persists the envelope —
with `synced := false` and `read := false` — and the event trace
shows the persist immediately BEFORE the `message` frame is handed
to the transport; the returned UI record carries the persisted id
and has status `sent` exactly when the transport accepted the frame
and `sending` otherwise. -/
theorem c5_theorem (establish : KeyPair → String → String → SecureSession)
    (encrypt : SecureSession → String → String → String → String)
    (rand : String) (sent : Bool) (s : HandlerState) (keyPair : KeyPair)
    (recipientId conversationId content pk fp : String)
    (hkp : s.myKeyPair = some keyPair) (huid : s.myUserId ≠ "") :
    ∃ s2 msg, sendMessage establish encrypt rand sent s recipientId conversationId content pk fp =
        Except.ok (s2, msg) ∧
      msg.status = (if sent then "sent" else "sending") ∧
      msg.id = "msg-" ++ toString s.now ++ "-" ++ rand ∧
      (∃ record, record ∈ s2.store.msgs ∧ record.id = msg.id ∧
        record.synced = false ∧ record.read = false ∧
        record.conversationId = conversationId ∧ record.recipientId = recipientId ∧
        (∃ pre, s2.trace = pre ++
          [TraceEv.persist record,
           TraceEv.send (Frame.message
             ⟨conversationId, s.myUserId, recipientId, record.ciphertext, s.now⟩)] ∧
          (pre = s.trace ∨ pre = s.trace ++ [TraceEv.callbackSessionEst recipientId]))) := by
  unfold sendMessage
  rw [hkp]
  dsimp only
  rw [if_neg huid]
  cases hses : mapGet s.sessions recipientId with
  | some session =>
    simp only [hses]
    refine ⟨_, _, rfl, rfl, rfl, ?_⟩
    unfold saveMessage
    dsimp only
    refine ⟨_, mem_putMessage_self _ _, rfl, rfl, rfl, rfl, rfl, s.trace, ?_, Or.inl rfl⟩
    rfl
  | none =>
    simp only [hses]
    unfold establishSessionWith
    dsimp only
    refine ⟨_, _, rfl, rfl, rfl, ?_⟩
    unfold saveMessage
    dsimp only
    refine ⟨_, mem_putMessage_self _ _, rfl, rfl, rfl, rfl, rfl,
      s.trace ++ [TraceEv.callbackSessionEst recipientId], ?_, Or.inr rfl⟩
    simp

/-- Witness for the C5 theorem: a fresh initialized handler sending
to bob (no cached session, transport accepting the frame). -/
theorem c5_witness :
    exHandler.myKeyPair = some ⟨"PK", "FP"⟩ ∧
    exHandler.myUserId ≠ "" ∧
    (∃ s2 msg, sendMessage (fun _ _ _ => ⟨"s1", 0⟩) (fun _ _ _ c => "enc:" ++ c) "r" true
        exHandler "bob" "conv-2" "hi" "PKB" "FPB" = Except.ok (s2, msg) ∧
      msg.status = (if true then "sent" else "sending") ∧
      msg.id = "msg-" ++ toString exHandler.now ++ "-" ++ "r" ∧
      (∃ record, record ∈ s2.store.msgs ∧ record.id = msg.id ∧
        record.synced = false ∧ record.read = false ∧
        record.conversationId = "conv-2" ∧ record.recipientId = "bob" ∧
        (∃ pre, s2.trace = pre ++
          [TraceEv.persist record,
           TraceEv.send (Frame.message ⟨"conv-2", exHandler.myUserId, "bob", record.ciphertext,
             exHandler.now⟩)] ∧
          (pre = exHandler.trace ∨
           pre = exHandler.trace ++ [TraceEv.callbackSessionEst "bob"])))) := by
  refine ⟨rfl, by decide, ?_⟩
  exact c5_theorem (fun _ _ _ => ⟨"s1", 0⟩) (fun _ _ _ c => "enc:" ++ c) "r" true exHandler
    ⟨"PK", "FP"⟩ "bob" "conv-2" "hi" "PKB" "FPB" rfl (by decide)

end C5

section C7

theorem syncLoop_trace (sendOk : StoredMessage → Bool) (l : List StoredMessage) :
    ∀ s : HandlerState, (syncLoop sendOk s l).trace =
      s.trace ++ l.map (fun m => TraceEv.send (Frame.message
        ⟨m.conversationId, m.senderId, m.recipientId, m.ciphertext, m.timestamp⟩)) := by
  induction l with
  | nil =>
    intro s
    simp [syncLoop]
  | cons m rest ih =>
    intro s
    simp only [syncLoop]
    by_cases hok : sendOk m = true
    · simp only [hok, if_pos]
      rw [ih]
      simp
    · simp only [hok, Bool.false_eq_true, if_false]
      rw [ih]
      simp

theorem syncLoop_msgs (sendOk : StoredMessage → Bool) (l : List StoredMessage) :
    ∀ s : HandlerState, (syncLoop sendOk s l).store.msgs =
      s.store.msgs.map (fun r =>
        if l.any (fun mm => sendOk mm && mm.id == r.id) then { r with synced := true } else r) := by
  induction l with
  | nil =>
    intro s
    simp [syncLoop]
  | cons m rest ih =>
    intro s
    simp only [syncLoop]
    by_cases hok : sendOk m = true
    · simp only [hok, if_pos]
      rw [ih]
      simp only [markSynced, markMessageSynced]
      rw [List.map_map]
      apply List.map_congr_left
      intro r _
      simp only [Function.comp]
      by_cases hid : r.id = m.id
      · have h1 : (r.id == m.id) = true := by simp [hid]
        have h2 : (m.id == r.id) = true := by simp [hid]
        simp only [h1, if_pos, List.any_cons, hok, h2, Bool.true_and, Bool.true_or, if_true]
        by_cases hrest : rest.any (fun mm => sendOk mm && mm.id == r.id) = true
        · have : (fun mm => (sendOk mm && mm.id == ({ r with synced := true } : StoredMessage).id)) =
              (fun mm => sendOk mm && mm.id == r.id) := rfl
          rw [this, hrest]
          simp
        · have : (fun mm => (sendOk mm && mm.id == ({ r with synced := true } : StoredMessage).id)) =
              (fun mm => sendOk mm && mm.id == r.id) := rfl
          rw [this]
          simp only [Bool.not_eq_true] at hrest
          rw [hrest]
          simp
      · have h1 : (r.id == m.id) = false := by simp [hid]
        have h2 : (m.id == r.id) = false := by
          simp only [beq_eq_false_iff_ne, ne_eq]
          exact fun h => hid h.symm
        simp [h1, h2, List.any_cons, hok]
    · simp only [hok, Bool.false_eq_true, if_false]
      rw [ih]
      apply List.map_congr_left
      intro r _
      simp only [Bool.not_eq_true] at hok
      simp [List.any_cons, hok]

/-- Claim C7: what the code actually does on a connection-state
transition to `connected`.  The retransmission half of the claim
holds: every stored envelope with `synced:false` is re-sent as a
`message` frame.  The acknowledgment half does not: an envelope is
marked synced exactly when `client.send` returned true for its frame
— the transport-acceptance boolean, which the spec explicitly says
is NOT a delivery confirmation ("delivery confirmation is a
higher-level ack message").  The handler never subscribes to
`message_ack` frames, and accordingly this model of it has no
ack-processing transition at all: envelopes get marked synced with
no acknowledgment anywhere in the event history (the witness below
exhibits the full history), contradicting the claim's "marked synced
only upon a successful transmission acknowledgment".  Ill-accepted
sends stay unsynced and already-synced envelopes are untouched. -/
theorem c7_theorem (sendOk : StoredMessage → Bool) (s : HandlerState)
    (hwf : TableWF s.store.msgs) :
    (∀ m ∈ s.store.msgs, m.synced = false →
      TraceEv.send (Frame.message ⟨m.conversationId, m.senderId, m.recipientId, m.ciphertext,
        m.timestamp⟩) ∈ (onConnectionChange sendOk s "connected").trace) ∧
    (∀ m ∈ s.store.msgs, m.synced = false →
      lookupMessage (onConnectionChange sendOk s "connected").store.msgs m.id =
        some (if sendOk m then { m with synced := true } else m)) ∧
    (∀ m ∈ s.store.msgs, m.synced = true →
      lookupMessage (onConnectionChange sendOk s "connected").store.msgs m.id = some m) := by
  have hocc : onConnectionChange sendOk s "connected" =
      syncLoop sendOk { s with trace := s.trace ++ [TraceEv.callbackConnection "connected"] }
        (getUnsyncedMessages s.store.msgs) := by
    unfold onConnectionChange syncPendingMessages getUnsynced
    rw [if_pos rfl]
  set L := getUnsyncedMessages s.store.msgs with hL
  set F := fun r : StoredMessage =>
    if L.any (fun mm => sendOk mm && mm.id == r.id) then { r with synced := true } else r with hF
  have htrace : (onConnectionChange sendOk s "connected").trace =
      (s.trace ++ [TraceEv.callbackConnection "connected"]) ++ L.map (fun m =>
        TraceEv.send (Frame.message ⟨m.conversationId, m.senderId, m.recipientId, m.ciphertext,
          m.timestamp⟩)) := by
    rw [hocc, syncLoop_trace]
  have hmsgs : (onConnectionChange sendOk s "connected").store.msgs = s.store.msgs.map F := by
    rw [hocc, syncLoop_msgs]
  have hFid : ∀ r : StoredMessage, (F r).id = r.id := by
    intro r
    rw [hF]
    by_cases h : L.any (fun mm => sendOk mm && mm.id == r.id) = true
    · simp [h]
    · simp only [Bool.not_eq_true] at h
      simp [h]
  have hwf2 : TableWF (s.store.msgs.map F) := by
    unfold TableWF
    rw [List.map_map]
    have heq : s.store.msgs.map ((fun m => m.id) ∘ F) = s.store.msgs.map (fun m => m.id) :=
      List.map_congr_left (fun r _ => hFid r)
    rw [heq]
    exact hwf
  have hinj := List.inj_on_of_nodup_map (hwf : (s.store.msgs.map (fun m => m.id)).Nodup)
  have hmemL : ∀ m ∈ s.store.msgs, m.synced = false → m ∈ L := by
    intro m hm hsync
    rw [hL]
    unfold getUnsyncedMessages
    exact List.mem_filter.mpr ⟨hm, by simp [hsync]⟩
  have hcondT : ∀ m ∈ s.store.msgs, m.synced = false →
      (L.any (fun mm => sendOk mm && mm.id == m.id)) = sendOk m := by
    intro m hm hsync
    cases hcond : L.any (fun mm => sendOk mm && mm.id == m.id) with
    | false =>
      symm
      by_contra hok
      simp only [Bool.not_eq_false] at hok
      have : L.any (fun mm => sendOk mm && mm.id == m.id) = true :=
        List.any_eq_true.mpr ⟨m, hmemL m hm hsync, by simp [hok]⟩
      rw [hcond] at this
      exact Bool.false_ne_true this
    | true =>
      obtain ⟨mm, hmmL, hp⟩ := List.any_eq_true.mp hcond
      have hp2 : sendOk mm = true ∧ (mm.id == m.id) = true := by
        simpa [Bool.and_eq_true] using hp
      have hmm2 : mm ∈ s.store.msgs := by
        rw [hL] at hmmL
        exact (List.mem_filter.mp hmmL).1
      have hideq : mm.id = m.id := by simpa using hp2.2
      have : mm = m := hinj hmm2 hm hideq
      rw [← this]
      exact hp2.1.symm
  have hcondF : ∀ m ∈ s.store.msgs, m.synced = true →
      (L.any (fun mm => sendOk mm && mm.id == m.id)) = false := by
    intro m hm hsync
    rw [List.any_eq_false]
    intro mm hmmL hp
    have hp2 : sendOk mm = true ∧ (mm.id == m.id) = true := by
      simpa [Bool.and_eq_true] using hp
    have hmmfil := by rw [hL] at hmmL; exact List.mem_filter.mp hmmL
    have hideq : mm.id = m.id := by simpa using hp2.2
    have heq : mm = m := hinj hmmfil.1 hm hideq
    rw [heq] at hmmfil
    rw [hsync] at hmmfil
    simpa using hmmfil.2
  refine ⟨?_, ?_, ?_⟩
  · intro m hm hsync
    rw [htrace]
    apply List.mem_append.mpr
    right
    exact List.mem_map_of_mem _ (hmemL m hm hsync)
  · intro m hm hsync
    rw [hmsgs]
    have hmem : F m ∈ s.store.msgs.map F := List.mem_map_of_mem F hm
    have hlook := lookupMessage_of_wf _ (F m) hwf2 hmem
    rw [hFid] at hlook
    rw [hlook]
    congr 1
    rw [hF]
    simp only
    rw [hcondT m hm hsync]
  · intro m hm hsync
    rw [hmsgs]
    have hmem : F m ∈ s.store.msgs.map F := List.mem_map_of_mem F hm
    have hlook := lookupMessage_of_wf _ (F m) hwf2 hmem
    rw [hFid] at hlook
    rw [hlook]
    congr 1
    rw [hF]
    simp only
    rw [hcondF m hm hsync]
    simp

/-- Witness for the C7 theorem: a handler with one unsynced and one
synced envelope, the transport accepting every frame.  The final
conjunct gives the COMPLETE event history of the run — a connection
callback and one outbound send, no inbound frame and no
acknowledgment of any kind — in which the envelope `u1` nevertheless
got marked synced. -/
theorem c7_witness :
    TableWF exSyncHandler.store.msgs ∧
    TraceEv.send (Frame.message ⟨"c1", "a", "b", "ctU", 1⟩) ∈
      (onConnectionChange (fun _ => true) exSyncHandler "connected").trace ∧
    lookupMessage (onConnectionChange (fun _ => true) exSyncHandler "connected").store.msgs "u1" =
      some ⟨"u1", "c1", "a", "b", "ctU", 1, true, false⟩ ∧
    lookupMessage (onConnectionChange (fun _ => true) exSyncHandler "connected").store.msgs "s1" =
      some ⟨"s1", "c1", "a", "b", "ctS", 2, true, false⟩ ∧
    (onConnectionChange (fun _ => true) exSyncHandler "connected").trace =
      [TraceEv.callbackConnection "connected",
       TraceEv.send (Frame.message ⟨"c1", "a", "b", "ctU", 1⟩)] := by
  have hwf : TableWF exSyncHandler.store.msgs := by
    unfold TableWF
    decide
  have h := c7_theorem (fun _ => true) exSyncHandler hwf
  refine ⟨hwf, ?_, ?_, ?_, ?_⟩
  · exact h.1 ⟨"u1", "c1", "a", "b", "ctU", 1, false, false⟩ (by decide) rfl
  · have := h.2.1 ⟨"u1", "c1", "a", "b", "ctU", 1, false, false⟩ (by decide) rfl
    simpa using this
  · exact h.2.2 ⟨"s1", "c1", "a", "b", "ctS", 2, true, false⟩ (by decide) rfl
  · decide

end C7

end SC
